import Mathlib

/-!
Verification of the Outlook-Mail-Manager dual-protocol mail access layer.

This file shallowly embeds the Go source of the repository:
* `app.go` — transport selector, token caches (`getToken`, `getIMAPToken`,
  `clearTokenCache`, `GetMailFolders`, `GetMessages`, `GetMessageDetail`,
  `GetAttachments`);
* `internal/services/token_service.go` — OAuth2 refresh with tenant fallback
  (`RefreshAccessToken`, `refreshWithEndpoint`);
* `internal/services/imap_service.go` — connection pool (`getClient`),
  paged message listing (`GetMessages`, `parseMessages`) and the MIME
  decoder (`extractBodyWithType`, `decodeContent`);
* `internal/services/account_service.go` — the persisted account record
  updates (`UpdateToken`, `UpdateStatus`, `UpdateProtocol`).

Go strings are byte strings; all strings appearing in the verified
properties are ASCII, so strings are modelled as `List Char` with each
char standing for one byte.  External collaborators (the HTTP token
endpoint, the REST mail API, the IMAP socket) are modelled as oracles:
deterministic functions supplied as parameters, exactly at the call
boundaries the Go code uses.
-/

set_option maxRecDepth 20000

deriving instance DecidableEq for Except

/-- Go byte strings, modelled as lists of (ASCII/latin-1) characters. -/
abbrev Str := List Char

/-- Coerce a Lean string literal to the `Str` model. -/
def strOf (s : String) : Str := s.data

/-- ASCII lower-casing of one character (models `strings.ToLower` on the
ASCII subset actually exercised by the program). -/
def lowerChar (c : Char) : Char :=
  if 'A' ≤ c ∧ c ≤ 'Z' then Char.ofNat (c.toNat + 32) else c

/-- Models `strings.ToLower`. -/
def lowerStr (s : Str) : Str := s.map lowerChar

/-- Models `strings.Contains`. -/
def containsSub : Str → Str → Bool
  | [], pat => pat.isEmpty
  | c :: rest, pat => pat.isPrefixOf (c :: rest) || containsSub rest pat

/-- First split of `s` around the first occurrence of `pat`
(models `strings.SplitN s pat 2`; `none` when `pat` does not occur). -/
def splitFirst (pat : Str) : Str → Option (Str × Str)
  | [] => if pat.isEmpty then some ([], []) else none
  | c :: rest =>
    if pat.isPrefixOf (c :: rest) then some ([], (c :: rest).drop pat.length)
    else match splitFirst pat rest with
      | some (pre, post) => some (c :: pre, post)
      | none => none

/-- Fuelled worker for `splitOnStr`. -/
def splitOnFuel (pat : Str) : Nat → Str → List Str
  | 0, s => [s]
  | Nat.succ fuel, s =>
    match splitFirst pat s with
    | some (pre, post) => pre :: splitOnFuel pat fuel post
    | none => [s]

/-- Models `strings.Split` (with a non-empty separator). -/
def splitOnStr (s pat : Str) : List Str := splitOnFuel pat (s.length + 1) s

/-- Whitespace class of `strings.TrimSpace` (ASCII part). -/
def isSpaceChar (c : Char) : Bool :=
  c = ' ' || c = '\t' || c = '\n' || c = '\r' || c = Char.ofNat 11 || c = Char.ofNat 12

/-- Models `strings.TrimLeft` over whitespace. -/
def trimLeftSpace (s : Str) : Str := s.dropWhile isSpaceChar

/-- Models `strings.TrimRight` over whitespace. -/
def trimRightSpace (s : Str) : Str := (s.reverse.dropWhile isSpaceChar).reverse

/-- Models `strings.TrimSpace`. -/
def trimSpace (s : Str) : Str := trimLeftSpace (trimRightSpace s)

/-- Worker for `indexOfSub`. -/
def indexOfSubAux (pat : Str) : Str → Nat → Option Nat
  | [], i => if pat.isEmpty then some i else none
  | c :: rest, i =>
    if pat.isPrefixOf (c :: rest) then some i else indexOfSubAux pat rest (i + 1)

/-- Models `strings.Index` (position of first occurrence). -/
def indexOfSub (s pat : Str) : Option Nat := indexOfSubAux pat s 0

/-- Worker for `lastIndexOfSub`. -/
def lastIndexOfSubAux (pat : Str) : Str → Nat → Option Nat → Option Nat
  | [], _, best => best
  | c :: rest, i, best =>
    lastIndexOfSubAux pat rest (i + 1)
      (if pat.isPrefixOf (c :: rest) then some i else best)

/-- Models `strings.LastIndex` (position of last occurrence). -/
def lastIndexOfSub (s pat : Str) : Option Nat :=
  lastIndexOfSubAux pat s 0 (if pat.isEmpty then some s.length else none)

/-- Fuelled worker for `replaceAllSub`. -/
def replaceAllFuel (pat repl : Str) : Nat → Str → Str
  | 0, s => s
  | Nat.succ fuel, s =>
    match splitFirst pat s with
    | some (pre, post) => pre ++ repl ++ replaceAllFuel pat repl fuel post
    | none => s

/-- Models `strings.ReplaceAll` (leftmost, non-overlapping, the
replacement text is not rescanned). -/
def replaceAllSub (s pat repl : Str) : Str := replaceAllFuel pat repl (s.length + 1) s

/-- Decimal digit test, as in the `\d` regex class. -/
def isDigitChar (c : Char) : Bool := '0' ≤ c && c ≤ '9'

/-- Worker for `digitsToNat`. -/
def digitsToNatAux : Str → Nat → Nat
  | [], acc => acc
  | c :: rest, acc => digitsToNatAux rest (acc * 10 + (c.toNat - 48))

/-- Numeric value of a digit string (models `strconv.Atoi` on the digit
strings produced by the regex captures). -/
def digitsToNat (s : Str) : Nat := digitsToNatAux s 0

/-- Worker for `natToStr`; the fuel bounds the digit count. -/
def natToStrAux : Nat → Nat → Str
  | 0, _ => []
  | Nat.succ fuel, n =>
    if n = 0 then [] else natToStrAux fuel (n / 10) ++ [Char.ofNat (48 + n % 10)]

/-- Decimal rendering of a natural number. -/
def natToStr (n : Nat) : Str := if n = 0 then ['0'] else natToStrAux (n + 1) n

/-- Decimal rendering of an integer (models `fmt.Sprintf` with `%d`). -/
def intToStr (i : Int) : Str :=
  if i < 0 then '-' :: natToStr (-i).toNat else natToStr i.toNat

/-! ## Token refresh service (`internal/services/token_service.go`) -/

/-- `TokenResponse` of `token_service.go`: the parsed JSON body of the
OAuth2 token endpoint.  `errorCode`/`errorDesc` are the `error` /
`error_description` fields. -/
structure TokenResponse where
  accessToken : Str
  refreshToken : Str
  expiresIn : Int
  tokenType : Str
  errorCode : Str
  errorDesc : Str
deriving DecidableEq

/-- Outcome of one HTTP POST to the token endpoint, as seen by
`refreshWithEndpoint` after `http.Post` and `json.Unmarshal`:
a transport error, a JSON parse failure, or a parsed `TokenResponse`. -/
inductive HttpResult where
  | transportErr (msg : Str)
  | parseJsonErr
  | got (resp : TokenResponse)
deriving DecidableEq

/-- The remote token endpoint, abstracted as a deterministic oracle:
arguments are `clientID`, `refreshToken`, `scope`, `tenant`, exactly the
data `refreshWithEndpoint` puts in the request. -/
abbrev OauthOracle := Str → Str → Str → Str → HttpResult

/-- `ScopeIMAP` constant of `token_service.go`. -/
def ScopeIMAP : Str :=
  strOf "https://outlook.office.com/IMAP.AccessAsUser.All offline_access"

/-- `refreshWithEndpoint` of `token_service.go`: posts to the tenant's
token endpoint; a non-empty `error` field of the response is turned into
the error string `error ++ ": " ++ error_description`. -/
def refreshWithEndpoint (post : OauthOracle) (clientID refreshToken scope tenant : Str) :
    Except Str TokenResponse :=
  match post clientID refreshToken scope tenant with
  | .transportErr m => .error (strOf "request failed: " ++ m)
  | .parseJsonErr => .error (strOf "parse failed")
  | .got tok =>
    if tok.errorCode ≠ [] then .error (tok.errorCode ++ strOf ": " ++ tok.errorDesc)
    else .ok tok

/-- `RefreshAccessToken` of `token_service.go`: try the `consumers`
tenant with the empty (REST) scope; on an error mentioning
`invalid_grant`, retry once against the `common` tenant. -/
def RefreshAccessToken (post : OauthOracle) (clientID refreshToken : Str) :
    Except Str TokenResponse :=
  match refreshWithEndpoint post clientID refreshToken [] (strOf "consumers") with
  | .error e =>
    if containsSub e (strOf "invalid_grant") then
      refreshWithEndpoint post clientID refreshToken [] (strOf "common")
    else .error e
  | .ok t => .ok t

/-- `RefreshAccessTokenForIMAP` of `token_service.go`: same tenant
fallback, with the IMAP scope. -/
def RefreshAccessTokenForIMAP (post : OauthOracle) (clientID refreshToken : Str) :
    Except Str TokenResponse :=
  match refreshWithEndpoint post clientID refreshToken ScopeIMAP (strOf "consumers") with
  | .error e =>
    if containsSub e (strOf "invalid_grant") then
      refreshWithEndpoint post clientID refreshToken ScopeIMAP (strOf "common")
    else .error e
  | .ok t => .ok t

/-! ## Regex scanning machinery

The Go code drives several `regexp.MustCompile(...).ReplaceAllString` /
`FindStringSubmatch` calls.  Each concrete pattern used by the program is
implemented below as a deterministic scanner with the leftmost-match
semantics of RE2 specialised to that pattern. -/

/-- The RE2 `\s` class: `[\t\n\f\r ]`. -/
def isRegexSpace (c : Char) : Bool :=
  c = ' ' || c = '\t' || c = '\n' || c = Char.ofNat 12 || c = '\r'

/-- The RE2 `\w` class: `[0-9A-Za-z_]`. -/
def isWordChar (c : Char) : Bool :=
  ('0' ≤ c && c ≤ '9') || ('a' ≤ c && c ≤ 'z') || ('A' ≤ c && c ≤ 'Z') || c = '_'

/-- Worker for `scanFirst`. -/
def scanFirstAux (tryAt : Str → Option Nat) : Str → Nat → Option (Nat × Nat)
  | [], _ => none
  | c :: rest, i =>
    match tryAt (c :: rest) with
    | some len => some (i, len)
    | none => scanFirstAux tryAt rest (i + 1)

/-- Leftmost match of a pattern given its try-at-position matcher:
returns the start index and length of the first match. -/
def scanFirst (tryAt : Str → Option Nat) (s : Str) : Option (Nat × Nat) :=
  scanFirstAux tryAt s 0

/-- Leftmost match of a pattern of shape `(?is)OPEN[\s\S]*?CLOSE`
(e.g. `<script[\s\S]*?</script>`): the first occurrence of `OPEN`
(case-insensitively) followed, non-greedily, by the first later
occurrence of `CLOSE`. -/
def findTagSpanCI (openPat closePat : Str) (s : Str) : Option (Nat × Nat) :=
  let ls := lowerStr s
  match indexOfSub ls openPat with
  | none => none
  | some i =>
    match indexOfSub (ls.drop (i + openPat.length)) closePat with
    | none => none
    | some j => some (i, openPat.length + j + closePat.length)

/-- Leftmost match of a pattern of shape `(?i)OPEN[^>]*>`
(e.g. `<script[^>]*>`). -/
def findOpenTagCI (openPat : Str) (s : Str) : Option (Nat × Nat) :=
  let ls := lowerStr s
  match indexOfSub ls openPat with
  | none => none
  | some i =>
    match indexOfSub (ls.drop (i + openPat.length)) ['>'] with
    | none => none
    | some j => some (i, openPat.length + j + 1)

/-- Leftmost case-insensitive occurrence of a literal pattern
(e.g. `(?i)javascript:`). -/
def findSubCI (pat : Str) (s : Str) : Option (Nat × Nat) :=
  match indexOfSub (lowerStr s) (lowerStr pat) with
  | none => none
  | some i => some (i, pat.length)

/-- Try-at-position matcher for `(?i)\s+on\w+\s*=\s*["'][^"']*["']`. -/
def tryOnAttrQuoted (s : Str) : Option Nat :=
  let nws := (s.takeWhile isRegexSpace).length
  if nws = 0 then none else
  let s1 := s.drop nws
  if lowerStr (s1.take 2) = strOf "on" then
    let s2 := s1.drop 2
    let nw := (s2.takeWhile isWordChar).length
    if nw = 0 then none else
    let s3 := s2.drop nw
    let n1 := (s3.takeWhile isRegexSpace).length
    match s3.drop n1 with
    | '=' :: s5 =>
      let n2 := (s5.takeWhile isRegexSpace).length
      match s5.drop n2 with
      | q :: s7 =>
        if q = '"' ∨ q = '\'' then
          let nb := (s7.takeWhile (fun c => c ≠ '"' ∧ c ≠ '\'')).length
          match s7.drop nb with
          | q2 :: _ =>
            if q2 = '"' ∨ q2 = '\'' then some (nws + 2 + nw + n1 + 1 + n2 + 1 + nb + 1)
            else none
          | [] => none
        else none
      | [] => none
    | _ => none
  else none

/-- Try-at-position matcher for `(?i)\s+on\w+\s*=\s*[^\s>]+`. -/
def tryOnAttrBare (s : Str) : Option Nat :=
  let nws := (s.takeWhile isRegexSpace).length
  if nws = 0 then none else
  let s1 := s.drop nws
  if lowerStr (s1.take 2) = strOf "on" then
    let s2 := s1.drop 2
    let nw := (s2.takeWhile isWordChar).length
    if nw = 0 then none else
    let s3 := s2.drop nw
    let n1 := (s3.takeWhile isRegexSpace).length
    match s3.drop n1 with
    | '=' :: s5 =>
      let n2 := (s5.takeWhile isRegexSpace).length
      let nv := ((s5.drop n2).takeWhile (fun c => !isRegexSpace c && c ≠ '>')).length
      if nv = 0 then none else some (nws + 2 + nw + n1 + 1 + n2 + nv)
    | _ => none
  else none

/-- Try-at-position matcher for `(?i)data:\s*text/html`. -/
def tryDataHtml (s : Str) : Option Nat :=
  if lowerStr (s.take 5) = strOf "data:" then
    let s1 := s.drop 5
    let n := (s1.takeWhile isRegexSpace).length
    if lowerStr ((s1.drop n).take 9) = strOf "text/html" then some (5 + n + 9)
    else none
  else none

/-- Fuelled worker for `replaceMatches`. -/
def replaceMatchesFuel (find : Str → Option (Nat × Nat)) (repl : Str) :
    Nat → Str → Str
  | 0, s => s
  | Nat.succ fuel, s =>
    match find s with
    | none => s
    | some (i, len) =>
      s.take i ++ repl ++ replaceMatchesFuel find repl fuel (s.drop (i + len))

/-- `regexp.ReplaceAllString`: repeatedly replace the leftmost match,
continuing after the replacement. -/
def replaceMatches (find : Str → Option (Nat × Nat)) (repl : Str) (s : Str) : Str :=
  replaceMatchesFuel find repl (s.length + 1) s

/-- `sanitizeHTML` of `app.go`: strips script/noscript/iframe tags,
`on*` event attributes and script-scheme URLs, in the source's order. -/
def sanitizeHTML (s : Str) : Str :=
  let s1 := replaceMatches (findTagSpanCI (strOf "<script") (strOf "</script>")) [] s
  let s2 := replaceMatches (findOpenTagCI (strOf "<script")) [] s1
  let s3 := replaceMatches (findTagSpanCI (strOf "<noscript") (strOf "</noscript>")) [] s2
  let s4 := replaceMatches (findTagSpanCI (strOf "<iframe") (strOf "</iframe>")) [] s3
  let s5 := replaceMatches (findOpenTagCI (strOf "<iframe")) [] s4
  let s6 := replaceMatches (scanFirst tryOnAttrQuoted) [] s5
  let s7 := replaceMatches (scanFirst tryOnAttrBare) [] s6
  let s8 := replaceMatches (findSubCI (strOf "javascript:")) (strOf "blocked:") s7
  let s9 := replaceMatches (findSubCI (strOf "vbscript:")) (strOf "blocked:") s8
  replaceMatches (scanFirst tryDataHtml) (strOf "blocked:") s9

/-! ## Mail data model (`internal/models/mail.go`) -/

/-- `models.MailFolder`. -/
structure MailFolder where
  id : Str
  displayName : Str
  totalItemCount : Int
  unreadItemCount : Int
deriving DecidableEq

/-- `models.EmailAddr` (the nested `emailAddress` object flattened). -/
structure EmailAddr where
  name : Str
  address : Str
deriving DecidableEq

/-- `models.MessageBody`. -/
structure MessageBody where
  contentType : Str
  content : Str
deriving DecidableEq

/-- `models.Message`. -/
structure Message where
  id : Str
  subject : Str
  bodyPreview : Str
  body : Option MessageBody
  fromAddr : Option EmailAddr
  toRecipients : List EmailAddr
  receivedDateTime : Str
  hasAttachments : Bool
  isRead : Bool
deriving DecidableEq

/-- The Go zero value of `models.Message`. -/
def Message.empty : Message :=
  { id := [], subject := [], bodyPreview := [], body := none, fromAddr := none,
    toRecipients := [], receivedDateTime := [], hasAttachments := false, isRead := false }

/-- `models.Attachment`. -/
structure Attachment where
  id : Str
  name : Str
  contentType : Str
  size : Int
  contentBytes : Str
deriving DecidableEq

/-! ## Account store (`internal/models/account.go`,
`internal/services/account_service.go`)

Time instants are modelled as integer seconds; `time.Minute` is 60 and
`5*time.Minute` is 300. -/

/-- `models.Account` (the fields the access layer reads and writes). -/
structure Account where
  id : Int
  email : Str
  clientID : Str
  refreshToken : Str
  accessToken : Str
  tokenExpiresAt : Option Int
  status : Str
  protocol : Str
  lastError : Str
deriving DecidableEq

/-- `tokenCache` of `app.go`: one cached access token with its expiry. -/
structure TokenCacheEntry where
  token : Str
  expiresAt : Int
deriving DecidableEq

/-- Association-list lookup for the account table (`WHERE id = ?`). -/
def lookupAcc : List Account → Int → Option Account
  | [], _ => none
  | a :: rest, i => if a.id = i then some a else lookupAcc rest i

/-- Association-list update for the account table (`UPDATE ... WHERE id = ?`). -/
def updateAcc (f : Account → Account) (i : Int) : List Account → List Account
  | [] => []
  | a :: rest =>
    (if a.id = i then f a else a) :: updateAcc f i rest

/-- Lookup in a token-cache map (`map[int64]*tokenCache`). -/
def lookupTok : List (Int × TokenCacheEntry) → Int → Option TokenCacheEntry
  | [], _ => none
  | (k, v) :: rest, i => if k = i then some v else lookupTok rest i

/-- Map assignment `m[k] = v`. -/
def insertTok (m : List (Int × TokenCacheEntry)) (k : Int) (v : TokenCacheEntry) :
    List (Int × TokenCacheEntry) :=
  match m with
  | [] => [(k, v)]
  | (k0, v0) :: rest => if k0 = k then (k, v) :: rest else (k0, v0) :: insertTok rest k v

/-- Map deletion `delete(m, k)`. -/
def eraseTok (m : List (Int × TokenCacheEntry)) (k : Int) : List (Int × TokenCacheEntry) :=
  match m with
  | [] => []
  | (k0, v0) :: rest => if k0 = k then eraseTok rest k else (k0, v0) :: eraseTok rest k

/-- The in-process state of `App`: the persisted account table plus the
two in-memory token caches (`tokens` for the REST scope, `imapTokens`
for the IMAP scope). -/
structure AppState where
  accounts : List Account
  tokens : List (Int × TokenCacheEntry)
  imapTokens : List (Int × TokenCacheEntry)
deriving DecidableEq

/-- `AccountService.GetByID`. -/
def svcGetByID (st : AppState) (id : Int) : Except Str Account :=
  match lookupAcc st.accounts id with
  | some a => .ok a
  | none => .error (strOf "sql: no rows in result set")

/-- `AccountService.UpdateToken`: stores token, refresh token, expiry;
sets status `active` and clears the error field. -/
def svcUpdateToken (st : AppState) (id : Int) (accessToken refreshTok : Str)
    (expiresAt : Int) : AppState :=
  { st with accounts := updateAcc (fun a =>
      { a with accessToken := accessToken, refreshToken := refreshTok,
               tokenExpiresAt := some expiresAt, status := strOf "active",
               lastError := [] }) id st.accounts }

/-- `AccountService.UpdateStatus`. -/
def svcUpdateStatus (st : AppState) (id : Int) (status lastError : Str) : AppState :=
  { st with accounts := updateAcc (fun a =>
      { a with status := status, lastError := lastError }) id st.accounts }

/-- `AccountService.UpdateProtocol`. -/
def svcUpdateProtocol (st : AppState) (id : Int) (protocol : Str) : AppState :=
  { st with accounts := updateAcc (fun a => { a with protocol := protocol }) id st.accounts }

/-! ## App transport selector (`app.go`) -/

/-- Observable side effects of one `App` operation, in program order:
token-endpoint refresh calls, database writes, cache invalidation,
REST (graph) calls, IMAP calls, and frontend event emission. -/
inductive Effect where
  | oauthRefresh (scope : Str)
  | dbUpdateToken (id : Int)
  | dbUpdateStatus (id : Int) (status : Str)
  | dbUpdateProtocol (id : Int) (protocol : Str)
  | clearCache (id : Int)
  | restFolders (token : Str)
  | restMessages (token : Str) (folder : Str) (skip top : Int)
  | restMessage (token : Str) (msgID : Str)
  | restAttachments (token : Str) (msgID : Str)
  | imapFoldersCall (email token : Str)
  | imapMessagesCall (email token folder : Str) (skip top : Int)
  | imapMessageCall (email token folder msgID : Str)
  | emitProtocolUpdated (id : Int)
deriving DecidableEq

/-- An effect is a REST-transport (graph API) call. -/
def Effect.isRestCall : Effect → Bool
  | .restFolders _ => true
  | .restMessages _ _ _ _ => true
  | .restMessage _ _ => true
  | .restAttachments _ _ => true
  | _ => false

/-- The external collaborators of `App`, as deterministic oracles:
the OAuth token endpoint, the current instant, the REST (graph) mail
API and the IMAP service entry points. -/
structure Env where
  oauth : OauthOracle
  now : Int
  graphFolders : Str → Except Str (List MailFolder)
  graphMessages : Str → Str → Int → Int → Except Str (List Message)
  graphMessage : Str → Str → Except Str Message
  graphAttachments : Str → Str → Except Str (List Attachment)
  imapFolders : Str → Str → Except Str (List MailFolder)
  imapMessages : Str → Str → Str → Int → Int → Except Str (List Message)
  imapMessage : Str → Str → Str → Str → Except Str Message

/-- `App.getToken` (`app.go`): memory cache, then persisted cache, then
remote refresh; cached entries are usable only while
`expiresAt > now + 1 minute`. -/
def getToken (env : Env) (st : AppState) (accountID : Int) (forceRefresh : Bool) :
    Except Str Str × AppState × List Effect :=
  let memHit : Option Str :=
    if forceRefresh then none
    else match lookupTok st.tokens accountID with
      | some cached => if cached.expiresAt > env.now + 60 then some cached.token else none
      | none => none
  match memHit with
  | some tok => (.ok tok, st, [])
  | none =>
    match svcGetByID st accountID with
    | .error e => (.error e, st, [])
    | .ok account =>
      let dbHit : Option Int :=
        if forceRefresh then none
        else if account.accessToken ≠ [] then
          match account.tokenExpiresAt with
          | some exp => if exp > env.now + 60 then some exp else none
          | none => none
        else none
      match dbHit with
      | some exp =>
        (.ok account.accessToken,
         { st with tokens := insertTok st.tokens accountID ⟨account.accessToken, exp⟩ }, [])
      | none =>
        match RefreshAccessToken env.oauth account.clientID account.refreshToken with
        | .error e =>
          (.error e, svcUpdateStatus st accountID (strOf "error") e,
           [.oauthRefresh [], .dbUpdateStatus accountID (strOf "error")])
        | .ok tokResp =>
          let expiresAt := env.now + tokResp.expiresIn
          let st1 := svcUpdateToken st accountID tokResp.accessToken tokResp.refreshToken expiresAt
          let st2 := svcUpdateStatus st1 accountID (strOf "active") []
          (.ok tokResp.accessToken,
           { st2 with tokens := insertTok st2.tokens accountID ⟨tokResp.accessToken, expiresAt⟩ },
           [.oauthRefresh [], .dbUpdateToken accountID, .dbUpdateStatus accountID (strOf "active")])

/-- `App.ensureValidToken`. -/
def ensureValidToken (env : Env) (st : AppState) (accountID : Int) :
    Except Str Str × AppState × List Effect :=
  getToken env st accountID false

/-- `App.getIMAPToken` (`app.go`): memory cache under the IMAP scope,
then remote refresh with `RefreshAccessTokenForIMAP`; there is no
persisted-cache step. -/
def getIMAPToken (env : Env) (st : AppState) (accountID : Int) (forceRefresh : Bool) :
    Except Str Str × AppState × List Effect :=
  let memHit : Option Str :=
    if forceRefresh then none
    else match lookupTok st.imapTokens accountID with
      | some cached => if cached.expiresAt > env.now + 60 then some cached.token else none
      | none => none
  match memHit with
  | some tok => (.ok tok, st, [])
  | none =>
    match svcGetByID st accountID with
    | .error e => (.error e, st, [])
    | .ok account =>
      match RefreshAccessTokenForIMAP env.oauth account.clientID account.refreshToken with
      | .error e =>
        (.error e, svcUpdateStatus st accountID (strOf "error") e,
         [.oauthRefresh ScopeIMAP, .dbUpdateStatus accountID (strOf "error")])
      | .ok tokResp =>
        let expiresAt := env.now + tokResp.expiresIn
        let st1 := svcUpdateToken st accountID tokResp.accessToken tokResp.refreshToken expiresAt
        let st2 := svcUpdateStatus st1 accountID (strOf "active") []
        (.ok tokResp.accessToken,
         { st2 with imapTokens := insertTok st2.imapTokens accountID ⟨tokResp.accessToken, expiresAt⟩ },
         [.oauthRefresh ScopeIMAP, .dbUpdateToken accountID, .dbUpdateStatus accountID (strOf "active")])

/-- `App.clearTokenCache` (`app.go`): deletes the account's entry from
the REST cache and, per the source comment, also from the IMAP cache. -/
def clearTokenCache (st : AppState) (accountID : Int) : AppState :=
  { st with tokens := eraseTok st.tokens accountID,
            imapTokens := eraseTok st.imapTokens accountID }

/-- `App.CheckAccountToken`: forces a refresh and reports validity. -/
def CheckAccountToken (env : Env) (st : AppState) (accountID : Int) :
    Bool × AppState × List Effect :=
  match getToken env st accountID true with
  | (.ok _, st1, fx) => (true, st1, fx)
  | (.error _, st1, fx) => (false, st1, fx)

/-- The IMAP fallback tail of `App.GetMailFolders` (the code after the
REST attempts): obtain an IMAP-scope token, list folders over IMAP, and
on success persist the protocol marker and notify the frontend. -/
def getMailFoldersFallback (env : Env) (st : AppState) (accountID : Int)
    (account : Account) (fx0 : List Effect) :
    Except Str (List MailFolder) × AppState × List Effect :=
  match getIMAPToken env st accountID false with
  | (.error e, st1, fx) => (.error e, st1, fx0 ++ fx)
  | (.ok itok, st1, fx) =>
    match env.imapFolders account.email itok with
    | .ok result =>
      (.ok result, svcUpdateProtocol st1 accountID (strOf "imap"),
       fx0 ++ fx ++ [.imapFoldersCall account.email itok,
                     .dbUpdateProtocol accountID (strOf "imap"),
                     .emitProtocolUpdated accountID])
    | .error e =>
      (.error e, st1, fx0 ++ fx ++ [.imapFoldersCall account.email itok])

/-- `App.GetMailFolders`: IMAP-marked accounts go straight to IMAP;
otherwise try REST, with one forced-refresh retry on an `unauthorized`
error, then fall back to IMAP and mark the account. -/
def GetMailFolders (env : Env) (st : AppState) (accountID : Int) :
    Except Str (List MailFolder) × AppState × List Effect :=
  match svcGetByID st accountID with
  | .error e => (.error e, st, [])
  | .ok account =>
    if account.protocol = strOf "imap" then
      match getIMAPToken env st accountID false with
      | (.error e, st1, fx) => (.error e, st1, fx)
      | (.ok itok, st1, fx) =>
        (env.imapFolders account.email itok, st1, fx ++ [.imapFoldersCall account.email itok])
    else
      match ensureValidToken env st accountID with
      | (.error _, st1, fx1) => getMailFoldersFallback env st1 accountID account fx1
      | (.ok tok, st1, fx1) =>
        match env.graphFolders tok with
        | .ok result => (.ok result, st1, fx1 ++ [.restFolders tok])
        | .error e =>
          if containsSub e (strOf "unauthorized") then
            match getToken env (clearTokenCache st1 accountID) accountID true with
            | (.ok tok2, st3, fx2) =>
              match env.graphFolders tok2 with
              | .ok result =>
                (.ok result, st3,
                 fx1 ++ [.restFolders tok, .clearCache accountID] ++ fx2 ++ [.restFolders tok2])
              | .error _ =>
                getMailFoldersFallback env st3 accountID account
                  (fx1 ++ [.restFolders tok, .clearCache accountID] ++ fx2 ++ [.restFolders tok2])
            | (.error _, st3, fx2) =>
              getMailFoldersFallback env st3 accountID account
                (fx1 ++ [.restFolders tok, .clearCache accountID] ++ fx2)
          else
            getMailFoldersFallback env st1 accountID account (fx1 ++ [.restFolders tok])

/-- The IMAP fallback tail of `App.GetMessages`. -/
def getMessagesFallback (env : Env) (st : AppState) (accountID : Int)
    (account : Account) (folderID : Str) (page : Int) (fx0 : List Effect) :
    Except Str (List Message) × AppState × List Effect :=
  match getIMAPToken env st accountID false with
  | (.error e, st1, fx) => (.error e, st1, fx0 ++ fx)
  | (.ok itok, st1, fx) =>
    match env.imapMessages account.email itok folderID (page * 20) 20 with
    | .ok result =>
      (.ok result, svcUpdateProtocol st1 accountID (strOf "imap"),
       fx0 ++ fx ++ [.imapMessagesCall account.email itok folderID (page * 20) 20,
                     .dbUpdateProtocol accountID (strOf "imap"),
                     .emitProtocolUpdated accountID])
    | .error e =>
      (.error e, st1,
       fx0 ++ fx ++ [.imapMessagesCall account.email itok folderID (page * 20) 20])

/-- `App.GetMessages`: same selection strategy as `GetMailFolders`,
with `skip = page*20`, `top = 20`. -/
def GetMessages (env : Env) (st : AppState) (accountID : Int) (folderID : Str)
    (page : Int) : Except Str (List Message) × AppState × List Effect :=
  match svcGetByID st accountID with
  | .error e => (.error e, st, [])
  | .ok account =>
    if account.protocol = strOf "imap" then
      match getIMAPToken env st accountID false with
      | (.error e, st1, fx) => (.error e, st1, fx)
      | (.ok itok, st1, fx) =>
        (env.imapMessages account.email itok folderID (page * 20) 20, st1,
         fx ++ [.imapMessagesCall account.email itok folderID (page * 20) 20])
    else
      match ensureValidToken env st accountID with
      | (.error _, st1, fx1) => getMessagesFallback env st1 accountID account folderID page fx1
      | (.ok tok, st1, fx1) =>
        match env.graphMessages tok folderID (page * 20) 20 with
        | .ok result => (.ok result, st1, fx1 ++ [.restMessages tok folderID (page * 20) 20])
        | .error e =>
          if containsSub e (strOf "unauthorized") then
            match getToken env (clearTokenCache st1 accountID) accountID true with
            | (.ok tok2, st3, fx2) =>
              match env.graphMessages tok2 folderID (page * 20) 20 with
              | .ok result =>
                (.ok result, st3,
                 fx1 ++ [.restMessages tok folderID (page * 20) 20, .clearCache accountID]
                   ++ fx2 ++ [.restMessages tok2 folderID (page * 20) 20])
              | .error _ =>
                getMessagesFallback env st3 accountID account folderID page
                  (fx1 ++ [.restMessages tok folderID (page * 20) 20, .clearCache accountID]
                    ++ fx2 ++ [.restMessages tok2 folderID (page * 20) 20])
            | (.error _, st3, fx2) =>
              getMessagesFallback env st3 accountID account folderID page
                (fx1 ++ [.restMessages tok folderID (page * 20) 20, .clearCache accountID] ++ fx2)
          else
            getMessagesFallback env st1 accountID account folderID page
              (fx1 ++ [.restMessages tok folderID (page * 20) 20])

/-- The `sanitize:` label of `App.GetMessageDetail`: HTML bodies are
passed through `sanitizeHTML`. -/
def sanitizeMessage (m : Message) : Message :=
  match m.body with
  | some b =>
    if lowerStr b.contentType = strOf "html" then
      { m with body := some { b with content := sanitizeHTML b.content } }
    else m
  | none => m

/-- The IMAP fallback block of `App.GetMessageDetail`. -/
def getMessageDetailFallback (env : Env) (st : AppState) (accountID : Int)
    (account : Account) (messageID folderID : Str) (fx0 : List Effect) :
    Except Str Message × AppState × List Effect :=
  match getIMAPToken env st accountID false with
  | (.error e, st1, fx) => (.error e, st1, fx0 ++ fx)
  | (.ok itok, st1, fx) =>
    let fid := if folderID = [] then strOf "inbox" else folderID
    match env.imapMessage account.email itok fid messageID with
    | .error e =>
      (.error e, st1, fx0 ++ fx ++ [.imapMessageCall account.email itok fid messageID])
    | .ok m =>
      (.ok (sanitizeMessage m), svcUpdateProtocol st1 accountID (strOf "imap"),
       fx0 ++ fx ++ [.imapMessageCall account.email itok fid messageID,
                     .dbUpdateProtocol accountID (strOf "imap"),
                     .emitProtocolUpdated accountID])

/-- `App.GetMessageDetail`: same selection strategy, fetching one
message; every successful exit passes through the `sanitize:` label. -/
def GetMessageDetail (env : Env) (st : AppState) (accountID : Int)
    (messageID folderID : Str) : Except Str Message × AppState × List Effect :=
  match svcGetByID st accountID with
  | .error e => (.error e, st, [])
  | .ok account =>
    if account.protocol = strOf "imap" then
      match getIMAPToken env st accountID false with
      | (.error e, st1, fx) => (.error e, st1, fx)
      | (.ok itok, st1, fx) =>
        let fid := if folderID = [] then strOf "inbox" else folderID
        match env.imapMessage account.email itok fid messageID with
        | .error e =>
          (.error e, st1, fx ++ [.imapMessageCall account.email itok fid messageID])
        | .ok m =>
          (.ok (sanitizeMessage m), st1,
           fx ++ [.imapMessageCall account.email itok fid messageID])
    else
      match ensureValidToken env st accountID with
      | (.error _, st1, fx1) =>
        getMessageDetailFallback env st1 accountID account messageID folderID fx1
      | (.ok tok, st1, fx1) =>
        match env.graphMessage tok messageID with
        | .ok m => (.ok (sanitizeMessage m), st1, fx1 ++ [.restMessage tok messageID])
        | .error e =>
          if containsSub e (strOf "unauthorized") then
            match getToken env (clearTokenCache st1 accountID) accountID true with
            | (.ok tok2, st3, fx2) =>
              match env.graphMessage tok2 messageID with
              | .ok m =>
                (.ok (sanitizeMessage m), st3,
                 fx1 ++ [.restMessage tok messageID, .clearCache accountID]
                   ++ fx2 ++ [.restMessage tok2 messageID])
              | .error _ =>
                getMessageDetailFallback env st3 accountID account messageID folderID
                  (fx1 ++ [.restMessage tok messageID, .clearCache accountID]
                    ++ fx2 ++ [.restMessage tok2 messageID])
            | (.error _, st3, fx2) =>
              getMessageDetailFallback env st3 accountID account messageID folderID
                (fx1 ++ [.restMessage tok messageID, .clearCache accountID] ++ fx2)
          else
            getMessageDetailFallback env st1 accountID account messageID folderID
              (fx1 ++ [.restMessage tok messageID])

/-- `App.GetAttachments`: IMAP-marked accounts get an empty list
immediately; otherwise try REST with the usual one-retry; all REST
failures end in an empty list with no error. -/
def GetAttachments (env : Env) (st : AppState) (accountID : Int) (messageID : Str) :
    Except Str (List Attachment) × AppState × List Effect :=
  match svcGetByID st accountID with
  | .error e => (.error e, st, [])
  | .ok account =>
    if account.protocol = strOf "imap" then (.ok [], st, [])
    else
      match ensureValidToken env st accountID with
      | (.error _, st1, fx1) => (.ok [], st1, fx1)
      | (.ok tok, st1, fx1) =>
        match env.graphAttachments tok messageID with
        | .ok result => (.ok result, st1, fx1 ++ [.restAttachments tok messageID])
        | .error e =>
          if containsSub e (strOf "unauthorized") then
            match getToken env (clearTokenCache st1 accountID) accountID true with
            | (.ok tok2, st3, fx2) =>
              match env.graphAttachments tok2 messageID with
              | .ok result =>
                (.ok result, st3,
                 fx1 ++ [.restAttachments tok messageID, .clearCache accountID]
                   ++ fx2 ++ [.restAttachments tok2 messageID])
              | .error _ =>
                (.ok [], st3,
                 fx1 ++ [.restAttachments tok messageID, .clearCache accountID]
                   ++ fx2 ++ [.restAttachments tok2 messageID])
            | (.error _, st3, fx2) =>
              (.ok [], st3,
               fx1 ++ [.restAttachments tok messageID, .clearCache accountID] ++ fx2)
          else (.ok [], st1, fx1 ++ [.restAttachments tok messageID])

/-! ## IMAP service (`internal/services/imap_service.go`) -/

/-- Association-list lookup for the folder-name tables. -/
def lookupStrMap : List (Str × Str) → Str → Option Str
  | [], _ => none
  | (k, v) :: rest, key => if k = key then some v else lookupStrMap rest key

/-- `imapFolderMap`: REST API folder id (lower-case) to IMAP name. -/
def imapFolderMap : List (Str × Str) :=
  [ (strOf "inbox", strOf "INBOX"),
    (strOf "junkemail", strOf "Junk"),
    (strOf "drafts", strOf "Drafts"),
    (strOf "sentitems", strOf "Sent"),
    (strOf "deleteditems", strOf "Deleted"),
    (strOf "outbox", strOf "Outbox"),
    (strOf "notes", strOf "Notes"),
    (strOf "archive", strOf "Archive") ]

/-- `MapFolderID`: lower-case the REST folder id and translate it to the
IMAP mailbox name; unknown ids pass through unchanged. -/
def MapFolderID (folderID : Str) : Str :=
  match lookupStrMap imapFolderMap (lowerStr folderID) with
  | some mapped => mapped
  | none => folderID

/-- `pooledClient` of `imap_service.go`.  The Go value holds a live
`*IMAPClient`; object identity is modelled by a numeric client id
allocated from `PoolState.nextId`. -/
structure PooledClient where
  clientId : Nat
  token : Str
  lastUsed : Int
  createdAt : Int
deriving DecidableEq

/-- The `IMAPService` connection pool (`pool map[string]*pooledClient`)
plus the allocator for fresh client identities. -/
structure PoolState where
  pool : List (Str × PooledClient)
  nextId : Nat
deriving DecidableEq

/-- Pool lookup `s.pool[email]`. -/
def lookupPool : List (Str × PooledClient) → Str → Option PooledClient
  | [], _ => none
  | (k, v) :: rest, key => if k = key then some v else lookupPool rest key

/-- Pool assignment `s.pool[email] = pc`. -/
def insertPool (m : List (Str × PooledClient)) (key : Str) (v : PooledClient) :
    List (Str × PooledClient) :=
  match m with
  | [] => [(key, v)]
  | (k0, v0) :: rest =>
    if k0 = key then (key, v) :: rest else (k0, v0) :: insertPool rest key v

/-- Pool deletion `delete(s.pool, email)`. -/
def erasePool (m : List (Str × PooledClient)) (key : Str) : List (Str × PooledClient) :=
  match m with
  | [] => []
  | (k0, v0) :: rest =>
    if k0 = key then erasePool rest key else (k0, v0) :: erasePool rest key

/-- Observable pool events: a pooled client received the close sequence
(`pc.client.Close()`, i.e. LOGOUT then socket close), or a fresh client
completed Connect+Authenticate. -/
inductive PoolEffect where
  | closedClient (id : Nat)
  | connectedClient (id : Nat)
deriving DecidableEq

/-- Creation tail of `IMAPService.getClient`: `newIMAPClient` (modelled
by the `connect` oracle returning `some err` on failure), then cache the
connection. -/
def poolCreateClient (connect : Str → Str → Option Str) (now : Int) (st : PoolState)
    (email token : Str) (fx0 : List PoolEffect) :
    Except Str Nat × PoolState × List PoolEffect :=
  match connect email token with
  | some e => (.error e, st, fx0)
  | none =>
    let cid := st.nextId
    (.ok cid,
     { pool := insertPool st.pool email ⟨cid, token, now, now⟩, nextId := st.nextId + 1 },
     fx0 ++ [.connectedClient cid])

/-- `IMAPService.getClient`: reuse the pooled client when it is younger
than 5 minutes and carries the same access token; otherwise close and
remove it, then connect a fresh client and cache it. -/
def IMAPService.getClient (connect : Str → Str → Option Str) (now : Int) (st : PoolState)
    (email token : Str) : Except Str Nat × PoolState × List PoolEffect :=
  match lookupPool st.pool email with
  | some pc =>
    if now - pc.lastUsed < 300 ∧ pc.token = token then
      (.ok pc.clientId,
       { st with pool := insertPool st.pool email { pc with lastUsed := now } }, [])
    else
      poolCreateClient connect now { st with pool := erasePool st.pool email }
        email token [.closedClient pc.clientId]
  | none => poolCreateClient connect now st email token []

/-- Scanner for `existsRe` = `\* (\d+) EXISTS` at one position. -/
def tryExistsAt (s : Str) : Option Nat :=
  if (strOf "* ").isPrefixOf s then
    let s1 := s.drop 2
    let ds := s1.takeWhile isDigitChar
    if ds ≠ [] ∧ (strOf " EXISTS").isPrefixOf (s1.drop ds.length) then
      some (digitsToNat ds)
    else none
  else none

/-- Worker for `existsFind`. -/
def existsFindAux : Str → Option Nat
  | [] => none
  | c :: rest =>
    match tryExistsAt (c :: rest) with
    | some n => some n
    | none => existsFindAux rest

/-- `existsRe.FindStringSubmatch`: the first `* <n> EXISTS` count. -/
def existsFind (s : Str) : Option Nat := existsFindAux s

/-- Scanner for `uidRe` = `\* \d+ FETCH \(UID (\d+)` at one position. -/
def tryUidAt (s : Str) : Option Str :=
  if (strOf "* ").isPrefixOf s then
    let s1 := s.drop 2
    let ds1 := s1.takeWhile isDigitChar
    if ds1 = [] then none else
    let s2 := s1.drop ds1.length
    if (strOf " FETCH (UID ").isPrefixOf s2 then
      let ds2 := (s2.drop 12).takeWhile isDigitChar
      if ds2 = [] then none else some ds2
    else none
  else none

/-- Worker for `uidFind`. -/
def uidFindAux : Str → Option Str
  | [] => none
  | c :: rest =>
    match tryUidAt (c :: rest) with
    | some u => some u
    | none => uidFindAux rest

/-- `uidRe.FindStringSubmatch`: the first captured UID digit string. -/
def uidFind (s : Str) : Option Str := uidFindAux s

/-- `seenRe.MatchString` with `seenRe` = `FLAGS \([^)]*\\Seen[^)]*\)`:
some `FLAGS (` group closed by `)` contains `\Seen`. -/
def seenMatchAux : Str → Bool
  | [] => false
  | c :: rest =>
    if (strOf "FLAGS (").isPrefixOf (c :: rest) then
      let after := (c :: rest).drop 7
      let seg := after.takeWhile (fun ch => ch ≠ ')')
      if seg.length < after.length ∧ containsSub seg (strOf "\\Seen") then true
      else seenMatchAux rest
    else seenMatchAux rest

/-- `seenRe.MatchString`. -/
def seenMatch (s : Str) : Bool := seenMatchAux s

/-! ## MIME and header decoding (`imap_service.go` + the Go standard
library routines it calls: `mime.WordDecoder.DecodeHeader`,
`mime/quotedprintable`, `encoding/base64`) -/

/-- Hex digit value; lower-case digits are accepted, as in the Go
decoders (`mime/quotedprintable`, `mime`). -/
def hexVal (c : Char) : Option Nat :=
  if '0' ≤ c ∧ c ≤ '9' then some (c.toNat - 48)
  else if 'A' ≤ c ∧ c ≤ 'F' then some (c.toNat - 55)
  else if 'a' ≤ c ∧ c ≤ 'f' then some (c.toNat - 87)
  else none

/-- Base64 value of one standard-alphabet character. -/
def b64Val (c : Char) : Option Nat :=
  if 'A' ≤ c ∧ c ≤ 'Z' then some (c.toNat - 65)
  else if 'a' ≤ c ∧ c ≤ 'z' then some (c.toNat - 71)
  else if '0' ≤ c ∧ c ≤ '9' then some (c.toNat + 4)
  else if c = '+' then some 62
  else if c = '/' then some 63
  else none

/-- Quantum-of-four worker for `base64Decode`; padding is legal only in
the final quantum.  Non-zero trailing bits are discarded, as in Go's
non-strict `StdEncoding`. -/
def base64DecodeGroups : Str → Option (List Nat)
  | [] => some []
  | a :: b :: c :: d :: rest =>
    match b64Val a, b64Val b with
    | some va, some vb =>
      if c = '=' then
        if d = '=' ∧ rest = [] then some [va * 4 + vb / 16] else none
      else
        match b64Val c with
        | some vc =>
          if d = '=' then
            if rest = [] then some [va * 4 + vb / 16, (vb % 16) * 16 + vc / 4] else none
          else
            match b64Val d with
            | some vd =>
              match base64DecodeGroups rest with
              | some tail =>
                some ([va * 4 + vb / 16, (vb % 16) * 16 + vc / 4, (vc % 4) * 64 + vd] ++ tail)
              | none => none
            | none => none
        | none => none
    | _, _ => none
  | _ => none

/-- `base64.StdEncoding.DecodeString`: `\r` and `\n` are ignored, the
rest must be well-padded standard-alphabet quanta.  Decoded bytes are
represented as latin-1 characters. -/
def base64Decode (s : Str) : Option Str :=
  (base64DecodeGroups (s.filter (fun c => c ≠ '\r' ∧ c ≠ '\n'))).map
    (fun bs => bs.map Char.ofNat)

/-- The whitespace discarded at quoted-printable line ends
(`isQPDiscardWhitespace` of `mime/quotedprintable`). -/
def isQPDiscardWS (c : Char) : Bool := c = ' ' || c = '\t' || c = '\n' || c = '\r'

/-- Right-trim of the quoted-printable discardable whitespace. -/
def trimRightQP (s : Str) : Str := (s.reverse.dropWhile isQPDiscardWS).reverse

/-- Fuelled worker for `splitLinesKeep`. -/
def splitLinesKeepFuel : Nat → Str → List Str
  | 0, s => [s]
  | Nat.succ fuel, s =>
    match splitFirst ['\n'] s with
    | none => [s]
    | some (pre, post) =>
      (pre ++ ['\n']) :: (if post.isEmpty then [] else splitLinesKeepFuel fuel post)

/-- Split into lines, each keeping its terminating `\n` (the last line
may lack one), mirroring `bufio.ReadSlice` as used by the
quoted-printable reader. -/
def splitLinesKeep (s : Str) : List Str := splitLinesKeepFuel (s.length + 1) s

/-- Per-line step of Go's quoted-printable reader: trailing discardable
whitespace is stripped; a trailing `=` is a soft break (legal before a
line break, or bare at EOF); otherwise the hard line break is restored. -/
def processQpLine (line : Str) : Option Str :=
  let stripped := trimRightQP line
  match stripped.getLast? with
  | some '=' =>
    let rightStripped := line.drop stripped.length
    let kept := stripped.dropLast
    let atEOF := line.getLast? ≠ some '\n'
    if (strOf "\n").isPrefixOf rightStripped ∨ (strOf "\r\n").isPrefixOf rightStripped
       ∨ (rightStripped = [] ∧ kept ≠ [] ∧ atEOF) then
      some kept
    else none
  | _ =>
    match line.getLast? with
    | some '\n' =>
      match line.reverse with
      | '\n' :: '\r' :: _ => some (stripped ++ strOf "\r\n")
      | _ => some (stripped ++ strOf "\n")
    | _ => some stripped

/-- Process every line for `qpDecode`. -/
def qpProcessLines : List Str → Option Str
  | [] => some []
  | l :: rest =>
    match processQpLine l, qpProcessLines rest with
    | some a, some b => some (a ++ b)
    | _, _ => none

/-- The `=XX` hex-unescaping pass of the quoted-printable reader;
an `=` not followed by two hex digits is an error. -/
def qpHexPass : Str → Option Str
  | [] => some []
  | '=' :: a :: b :: rest =>
    match hexVal a, hexVal b with
    | some ha, some hb => (qpHexPass rest).map (fun t => Char.ofNat (ha * 16 + hb) :: t)
    | _, _ => none
  | '=' :: _ => none
  | c :: rest => (qpHexPass rest).map (fun t => c :: t)

/-- `io.ReadAll(quotedprintable.NewReader ...)`: `none` models a decode
error (in which case `decodeContent` keeps the raw body). -/
def qpDecode (s : Str) : Option Str :=
  match qpProcessLines (splitLinesKeep s) with
  | none => none
  | some joined => qpHexPass joined

/-- Q-encoded-word decoding (`qDecode` of `mime`): `_` is space, `=XX`
is a hex byte, other bytes must be printable or tab/CR/LF. -/
def qDecodeWord : Str → Option Str
  | [] => some []
  | '_' :: rest => (qDecodeWord rest).map (fun t => ' ' :: t)
  | '=' :: a :: b :: rest =>
    match hexVal a, hexVal b with
    | some ha, some hb => (qDecodeWord rest).map (fun t => Char.ofNat (ha * 16 + hb) :: t)
    | _, _ => none
  | '=' :: _ => none
  | c :: rest =>
    if (' ' ≤ c ∧ c ≤ '~') ∨ c = '\n' ∨ c = '\r' ∨ c = '\t' then
      (qDecodeWord rest).map (fun t => c :: t)
    else none

/-- Payload decoding of one RFC 2047 encoded word (`decode` of `mime`). -/
def decodeWordPayload (enc : Char) (text : Str) : Option Str :=
  if enc = 'B' ∨ enc = 'b' then base64Decode text
  else if enc = 'Q' ∨ enc = 'q' then qDecodeWord text
  else none

/-- ASCII case folding (`strings.EqualFold` on the charsets used). -/
def eqFold (a b : Str) : Bool := lowerStr a = lowerStr b

/-- Charset conversion of `WordDecoder.convert` with no custom
`CharsetReader`: utf-8 and iso-8859-1 bytes pass through (the model
represents bytes as latin-1 chars), us-ascii maps high bytes to the
replacement character, anything else is an error. -/
def convertCharset (charset content : Str) : Option Str :=
  if eqFold charset (strOf "utf-8") then some content
  else if eqFold charset (strOf "iso-8859-1") then some content
  else if eqFold charset (strOf "us-ascii") then
    some (content.map (fun c => if 128 ≤ c.toNat then Char.ofNat 0xFFFD else c))
  else none

/-- `hasNonWhitespace` of `mime`. -/
def hasNonWhitespaceGo (s : Str) : Bool :=
  s.any (fun c => ¬(c = ' ' ∨ c = '\t' ∨ c = '\n' ∨ c = '\r'))

/-- The scanning loop of `mime.WordDecoder.DecodeHeader`: decode each
`=?charset?enc?text?=` word, dropping pure whitespace between adjacent
encoded words; malformed words fall back to literal text; a charset
conversion failure aborts (`none`). -/
def decodeHeaderLoop : Nat → Str → Str → Bool → Option Str
  | 0, acc, header, _ => some (acc ++ header)
  | Nat.succ fuel, acc, header, betweenWords =>
    match indexOfSub header (strOf "=?") with
    | none => some (acc ++ header)
    | some start =>
      let cur0 := start + 2
      match indexOfSub (header.drop cur0) ['?'] with
      | none => some (acc ++ header)
      | some i =>
        let charset := (header.drop cur0).take i
        let cur1 := cur0 + i + 1
        if header.length < cur1 + 4 then some (acc ++ header)
        else
          match (header.drop cur1).head? with
          | none => some (acc ++ header)
          | some enc =>
            let cur2 := cur1 + 1
            if (header.drop cur2).head? ≠ some '?' then some (acc ++ header)
            else
              let cur3 := cur2 + 1
              match indexOfSub (header.drop cur3) (strOf "?=") with
              | none => some (acc ++ header)
              | some j =>
                let text := (header.drop cur3).take j
                let endPos := cur3 + j + 2
                match decodeWordPayload enc text with
                | none =>
                  decodeHeaderLoop fuel (acc ++ header.take (start + 2))
                    (header.drop (start + 2)) false
                | some content =>
                  let acc1 :=
                    if start > 0 ∧ (betweenWords = false ∨ hasNonWhitespaceGo (header.take start))
                    then acc ++ header.take start
                    else acc
                  match convertCharset charset content with
                  | none => none
                  | some out => decodeHeaderLoop fuel (acc1 ++ out) (header.drop endPos) true

/-- `decodeHeader` of `imap_service.go`: RFC 2047 decoding via
`mime.WordDecoder.DecodeHeader`; on any decoding error the original
text is returned. -/
def decodeHeader (s : Str) : Str :=
  match indexOfSub s (strOf "=?") with
  | none => s
  | some i =>
    match decodeHeaderLoop (s.length + 1) (s.take i) (s.drop i) false with
    | some r => r
    | none => s

/-- Backtracking tail of the `^Field:\s*(.+)` header regexes: when `\s*`
ran to a line end, the regex gives back the longest non-newline
whitespace suffix for `(.+)` (which cannot match `\n`). -/
def backtrackCapture (wsRun : Str) : Option Str :=
  let tail := (wsRun.reverse.takeWhile (fun ch => ch ≠ '\n')).reverse
  if tail = [] then none else some tail

/-- Capture of `\s*(.+)` immediately after a matched field name:
skip (possibly line-crossing) whitespace greedily, then capture up to
the next newline; backtrack into the whitespace if nothing follows. -/
def captureAfter (s : Str) : Option Str :=
  let nws := (s.takeWhile isRegexSpace).length
  match s.drop nws with
  | [] => backtrackCapture (s.take nws)
  | c :: rest =>
    if c = '\n' then backtrackCapture (s.take nws)
    else some (c :: rest.takeWhile (fun ch => ch ≠ '\n'))

/-- Worker for `lineFieldFind`; the flag records whether the current
position starts a line (for the `(?m)^` anchor). -/
def lineFieldFindAux (pat : Str) : Str → Bool → Option Str
  | [], _ => none
  | c :: rest, atStart =>
    if atStart ∧ pat.isPrefixOf (c :: rest) then
      match captureAfter ((c :: rest).drop pat.length) with
      | some v => some v
      | none => lineFieldFindAux pat rest (c = '\n')
    else lineFieldFindAux pat rest (c = '\n')

/-- `FindStringSubmatch` for the line-anchored header field regexes
`(?m)^From:\s*(.+)` / `^To:` / `^Subject:` / `^Date:`. -/
def lineFieldFind (s pat : Str) : Option Str := lineFieldFindAux pat s true

/-- One iteration of the `parseMessages` block loop: blocks without
`FETCH` or without a parsable UID are skipped; otherwise the UID, the
`\Seen` flag and the decoded From/Subject/Date headers are collected. -/
def parseMsgBlock (block : Str) : Option Message :=
  if containsSub block (strOf "FETCH") = false then none
  else
    match uidFind (strOf "* " ++ block) with
    | none => none
    | some uid =>
      let m0 := { Message.empty with id := uid, isRead := seenMatch block }
      let m1 := match lineFieldFind block (strOf "From:") with
        | some v =>
          { m0 with fromAddr := some { name := [], address := decodeHeader (trimSpace v) } }
        | none => m0
      let m2 := match lineFieldFind block (strOf "Subject:") with
        | some v => { m1 with subject := decodeHeader (trimSpace v) }
        | none => m1
      let m3 := match lineFieldFind block (strOf "Date:") with
        | some v => { m2 with receivedDateTime := trimSpace v }
        | none => m2
      some m3

/-- `parseMessages` of `imap_service.go`: split the FETCH response on
`"* "`, parse each block, and reverse so the newest message is first. -/
def parseMessages (resp : Str) : List Message :=
  ((splitOnStr resp (strOf "* ")).filterMap parseMsgBlock).reverse

/-- The SELECT command string issued by `IMAPService.GetMessages`. -/
def selectCmdStr (imapFolder : Str) : Str :=
  strOf "SELECT \"" ++ imapFolder ++ strOf "\""

/-- The FETCH command string issued by `IMAPService.GetMessages` for a
sequence-number range. -/
def fetchCmdStr (start endSeq : Int) : Str :=
  strOf "FETCH " ++ intToStr start ++ [':'] ++ intToStr endSeq ++
  strOf " (UID FLAGS BODY.PEEK[HEADER.FIELDS (FROM SUBJECT DATE)])"

/-- `IMAPService.GetMessages` after the pooled client is acquired (the
pool itself is `IMAPService.getClient`); `command` stands for
`client.command`, one tagged protocol round trip.  Selects the folder,
reads the `EXISTS` total, computes the backward page window
(`start = total-skip-top+1` clamped to 1, `end = total-skip`, empty once
`end < 1` or the total is 0 or missing), fetches it and parses it. -/
def IMAPService.GetMessages (command : Str → Except Str Str) (folderID : Str)
    (skip top : Int) : Except Str (List Message) :=
  let imapFolder := MapFolderID folderID
  match command (selectCmdStr imapFolder) with
  | .error e => .error e
  | .ok selectResp =>
    match existsFind selectResp with
    | none => .ok []
    | some totalN =>
      let total : Int := totalN
      if total = 0 then .ok []
      else
        let start0 := total - skip - top + 1
        let endSeq := total - skip
        let start := if start0 < 1 then 1 else start0
        if endSeq < 1 then .ok []
        else
          match command (fetchCmdStr start endSeq) with
          | .error e => .error e
          | .ok fetchResp => .ok (parseMessages fetchResp)

/-- Scanner for `boundaryRe` = `boundary="?([^"\s\r\n]+)"?` at one
position. -/
def tryBoundaryAt (s : Str) : Option Str :=
  if (strOf "boundary=").isPrefixOf s then
    let s1 := s.drop 9
    let s2 := match s1 with
      | '"' :: r => r
      | _ => s1
    let run := s2.takeWhile (fun c => ¬(c = '"' ∨ isRegexSpace c))
    if run = [] then none else some run
  else none

/-- Worker for `boundaryFind`. -/
def boundaryFindAux : Str → Option Str
  | [] => none
  | c :: rest =>
    match tryBoundaryAt (c :: rest) with
    | some b => some b
    | none => boundaryFindAux rest

/-- `boundaryRe.FindStringSubmatch`: the captured MIME boundary. -/
def boundaryFind (s : Str) : Option Str := boundaryFindAux s

/-- `decodeContent` of `imap_service.go`: quoted-printable decode when
declared (keeping the raw body on error), then base64 decode after
stripping all line breaks when declared (again keeping the body on
error), then trim surrounding whitespace. -/
def decodeContent (header body : Str) : Str :=
  let headerLower := lowerStr header
  let body1 :=
    if containsSub headerLower (strOf "quoted-printable") then
      match qpDecode body with
      | some d => d
      | none => body
    else body
  let body2 :=
    if containsSub headerLower (strOf "base64") then
      let cleanBody := replaceAllSub (replaceAllSub body1 (strOf "\r\n") []) (strOf "\n") []
      match base64Decode cleanBody with
      | some d => d
      | none => body1
    else body1
  trimSpace body2

/-- `extractPartContent` of `imap_service.go`: split one MIME part at
its first blank line, trim the body, cut a trailing boundary marker,
and decode per the part header. -/
def extractPartContent (part : Str) : Str :=
  let partsOpt :=
    match splitFirst (strOf "\r\n\r\n") part with
    | some hb => some hb
    | none => splitFirst (strOf "\n\n") part
  match partsOpt with
  | none => []
  | some (header, rawBody) =>
    let body0 := trimSpace rawBody
    let body1 :=
      match indexOfSub body0 (strOf "\r\n--") with
      | some idx => if idx > 0 then body0.take idx else body0
      | none => body0
    let body2 :=
      match indexOfSub body1 (strOf "\n--") with
      | some idx => if idx > 0 then body1.take idx else body1
      | none => body1
    decodeContent header body2

/-- The non-multipart tail of `extractBodyWithType`: split the payload
once at the first blank line, strip the trailing IMAP literal markers,
and decode per the header block. -/
def extractPlainBody (raw : Str) : Str × Bool :=
  let partsOpt :=
    match splitFirst (strOf "\r\n\r\n") raw with
    | some hb => some hb
    | none => splitFirst (strOf "\n\n") raw
  match partsOpt with
  | none => ([], false)
  | some (header, rawBody) =>
    let body1 :=
      match lastIndexOfSub rawBody (strOf ")\r\n") with
      | some idx => if idx > 0 then rawBody.take idx else rawBody
      | none => rawBody
    let body2 :=
      match lastIndexOfSub body1 (strOf " UID") with
      | some idx => if idx > 0 then body1.take idx else body1
      | none => body1
    (decodeContent header body2, containsSub (lowerStr header) (strOf "text/html"))

/-- `extractBodyWithType` of `imap_service.go`: with a boundary, split
on `--boundary`, collect the last `text/plain` and `text/html` parts and
prefer HTML; without one (or with both parts empty) fall back to the
single-part extraction.  Returns the body and whether it is HTML. -/
def extractBodyWithType (raw : Str) : Str × Bool :=
  match boundaryFind raw with
  | some boundary =>
    let parts := splitOnStr raw (strOf "--" ++ boundary)
    let chosen := parts.foldl (fun (tc : Str × Str) part =>
      let partLower := lowerStr part
      if containsSub partLower (strOf "content-type: text/plain") then
        (extractPartContent part, tc.2)
      else if containsSub partLower (strOf "content-type: text/html") then
        (tc.1, extractPartContent part)
      else tc) ([], [])
    if chosen.2 ≠ [] then (chosen.2, true)
    else if chosen.1 ≠ [] then (chosen.1, false)
    else extractPlainBody raw
  | none => extractPlainBody raw

/-! ## Concrete fixtures used by witnesses and counterexamples -/

/-- A REST-marked account used in concrete scenarios. -/
def acctO2 : Account :=
  { id := 7, email := strOf "u@hotmail.com", clientID := strOf "cid",
    refreshToken := strOf "rt", accessToken := strOf "atok",
    tokenExpiresAt := some 10000, status := strOf "active",
    protocol := strOf "o2", lastError := [] }

/-- The same account with the legacy transport marker set. -/
def acctLegacy : Account := { acctO2 with protocol := strOf "imap" }

/-- An app state holding `acctO2` with fresh cached tokens in both scopes. -/
def stO2 : AppState :=
  { accounts := [acctO2],
    tokens := [(7, ⟨strOf "cachedTok", 10000⟩)],
    imapTokens := [(7, ⟨strOf "cachedImapTok", 10000⟩)] }

/-- An app state holding `acctLegacy` with the same caches. -/
def stLegacy : AppState := { stO2 with accounts := [acctLegacy] }

/-- A sample folder list returned by the IMAP transport. -/
def folder1 : MailFolder :=
  { id := strOf "inbox", displayName := strOf "INBOX",
    totalItemCount := 3, unreadItemCount := 1 }

/-- Environment whose REST transport always reports an authorization
error while the IMAP transport succeeds; the token endpoint works. -/
def envAuthFail : Env :=
  { oauth := fun _ _ _ _ => .got ⟨strOf "newTok", strOf "newRT", 3600, strOf "Bearer", [], []⟩,
    now := 0,
    graphFolders := fun _ => .error (strOf "unauthorized: token expired"),
    graphMessages := fun _ _ _ _ => .error (strOf "unauthorized: token expired"),
    graphMessage := fun _ _ => .error (strOf "unauthorized: token expired"),
    graphAttachments := fun _ _ => .error (strOf "unauthorized: token expired"),
    imapFolders := fun _ _ => .ok [folder1],
    imapMessages := fun _ _ _ _ _ => .ok [],
    imapMessage := fun _ _ _ _ => .ok Message.empty,
    }

/-- Environment whose token endpoint always fails. -/
def envRefreshFail : Env :=
  { envAuthFail with
    oauth := fun _ _ _ _ => .got ⟨[], [], 0, [], strOf "invalid_grant", strOf "expired"⟩ }

/-- Token oracle answering `invalid_grant` on the `consumers` tenant and
succeeding on the `common` tenant. -/
def postConsumersFail : OauthOracle := fun _ _ _ tenant =>
  if tenant = strOf "consumers" then
    .got ⟨[], [], 0, [], strOf "invalid_grant", strOf "bad"⟩
  else .got ⟨strOf "tok2", strOf "r2", 3600, strOf "Bearer", [], []⟩

/-! ## Claim theorems -/

/-- C7: every credential refresh of either scope first calls the
`consumers` tenant endpoint; exactly when that call fails with an
error mentioning `invalid_grant` it retries once against the `common`
tenant and returns that second result as-is (no further retry); any
other outcome of the first call is returned directly. -/
theorem C7_refresh_tenant_fallback :
    ∀ (post : OauthOracle) (clientID refreshToken : Str),
      (∀ e, refreshWithEndpoint post clientID refreshToken [] (strOf "consumers") = .error e →
        containsSub e (strOf "invalid_grant") = true →
        RefreshAccessToken post clientID refreshToken
          = refreshWithEndpoint post clientID refreshToken [] (strOf "common"))
      ∧ (∀ t, refreshWithEndpoint post clientID refreshToken [] (strOf "consumers") = .ok t →
        RefreshAccessToken post clientID refreshToken = .ok t)
      ∧ (∀ e, refreshWithEndpoint post clientID refreshToken [] (strOf "consumers") = .error e →
        containsSub e (strOf "invalid_grant") = false →
        RefreshAccessToken post clientID refreshToken = .error e)
      ∧ (∀ e, refreshWithEndpoint post clientID refreshToken ScopeIMAP (strOf "consumers")
            = .error e →
        containsSub e (strOf "invalid_grant") = true →
        RefreshAccessTokenForIMAP post clientID refreshToken
          = refreshWithEndpoint post clientID refreshToken ScopeIMAP (strOf "common"))
      ∧ (∀ t, refreshWithEndpoint post clientID refreshToken ScopeIMAP (strOf "consumers")
            = .ok t →
        RefreshAccessTokenForIMAP post clientID refreshToken = .ok t)
      ∧ (∀ e, refreshWithEndpoint post clientID refreshToken ScopeIMAP (strOf "consumers")
            = .error e →
        containsSub e (strOf "invalid_grant") = false →
        RefreshAccessTokenForIMAP post clientID refreshToken = .error e) := by
  intro post clientID refreshToken
  refine ⟨?_, ?_, ?_, ?_, ?_, ?_⟩
  · intro e h hc
    unfold RefreshAccessToken
    rw [h]
    simp [hc]
  · intro t h
    unfold RefreshAccessToken
    rw [h]
  · intro e h hc
    unfold RefreshAccessToken
    rw [h]
    simp [hc]
  · intro e h hc
    unfold RefreshAccessTokenForIMAP
    rw [h]
    simp [hc]
  · intro t h
    unfold RefreshAccessTokenForIMAP
    rw [h]
  · intro e h hc
    unfold RefreshAccessTokenForIMAP
    rw [h]
    simp [hc]

/-- Witness for C7 at a concrete oracle: the `consumers` call answers
`invalid_grant`, so the refresher returns the `common`-tenant result. -/
theorem C7_refresh_tenant_fallback_witness :
    RefreshAccessToken postConsumersFail (strOf "cid") (strOf "rt")
      = refreshWithEndpoint postConsumersFail (strOf "cid") (strOf "rt") [] (strOf "common") :=
  (C7_refresh_tenant_fallback postConsumersFail (strOf "cid") (strOf "rt")).1
    (strOf "invalid_grant: bad") (by decide) (by decide)

/-- Frame lemma for map deletion: deleting key `k` empties exactly that
key's binding. -/
theorem lookupTok_eraseTok (m : List (Int × TokenCacheEntry)) (k j : Int) :
    lookupTok (eraseTok m k) j = if j = k then none else lookupTok m j := by
  induction m with
  | nil => simp [eraseTok, lookupTok]
  | cons hd tl ih =>
    obtain ⟨k0, v0⟩ := hd
    by_cases h1 : k0 = k
    · rw [show eraseTok ((k0, v0) :: tl) k = eraseTok tl k by simp [eraseTok, h1], ih]
      by_cases hj : j = k
      · simp [hj]
      · have hk : ¬ k = j := fun hh => hj hh.symm
        simp [hj, lookupTok, h1, hk]
    · rw [show eraseTok ((k0, v0) :: tl) k = (k0, v0) :: eraseTok tl k by simp [eraseTok, h1]]
      by_cases h2 : k0 = j
      · have hj : ¬ j = k := fun hh => h1 (h2.trans hh)
        simp [lookupTok, h2, hj]
      · simp [lookupTok, h2, ih]

/-- `getToken` never touches the IMAP-scope cache. -/
theorem getToken_imapTokens (env : Env) (st : AppState) (accountID : Int)
    (forceRefresh : Bool) :
    ((getToken env st accountID forceRefresh).2.1).imapTokens = st.imapTokens := by
  unfold getToken
  repeat' split
  all_goals rfl

/-- `getIMAPToken` never touches the REST-scope cache. -/
theorem getIMAPToken_tokens (env : Env) (st : AppState) (accountID : Int)
    (forceRefresh : Bool) :
    ((getIMAPToken env st accountID forceRefresh).2.1).tokens = st.tokens := by
  unfold getIMAPToken
  repeat' split
  all_goals rfl

/-- C3 counterexample: the claim says that invalidating the REST-scope
credential leaves the cached IMAP-scope token unchanged, but
`clearTokenCache` — the invalidation used on REST authorization errors —
also deletes the IMAP-scope entry (`delete(a.imapTokens, accountID)`):
in `stO2` account 7 has a cached IMAP token, and after
`clearTokenCache stO2 7` it is gone. -/
theorem C3_counterexample :
    lookupTok stO2.imapTokens 7 = some ⟨strOf "cachedImapTok", 10000⟩
    ∧ lookupTok (clearTokenCache stO2 7).imapTokens 7 = none := by decide

/-- C3 (amended): obtaining or force-refreshing a token of one scope
leaves the other scope's cache untouched (`getToken` only writes
`tokens`, `getIMAPToken` only writes `imapTokens`); the cache
invalidation `clearTokenCache`, however, removes the account's entries
from BOTH scopes, leaving every other account's entries unchanged. -/
theorem C3_scope_isolation_amended :
    ∀ (env : Env) (st : AppState) (accountID : Int) (forceRefresh : Bool) (j : Int),
      ((getToken env st accountID forceRefresh).2.1).imapTokens = st.imapTokens
      ∧ ((getIMAPToken env st accountID forceRefresh).2.1).tokens = st.tokens
      ∧ lookupTok (clearTokenCache st accountID).tokens j
          = (if j = accountID then none else lookupTok st.tokens j)
      ∧ lookupTok (clearTokenCache st accountID).imapTokens j
          = (if j = accountID then none else lookupTok st.imapTokens j) := by
  intro env st accountID forceRefresh j
  refine ⟨getToken_imapTokens env st accountID forceRefresh,
          getIMAPToken_tokens env st accountID forceRefresh, ?_, ?_⟩
  · exact lookupTok_eraseTok st.tokens accountID j
  · exact lookupTok_eraseTok st.imapTokens accountID j

/-- Map assignment makes the assigned binding visible. -/
theorem lookupTok_insertTok_self (m : List (Int × TokenCacheEntry)) (k : Int)
    (v : TokenCacheEntry) : lookupTok (insertTok m k v) k = some v := by
  induction m with
  | nil => simp [insertTok, lookupTok]
  | cons hd tl ih =>
    obtain ⟨k0, v0⟩ := hd
    by_cases h : k0 = k
    · simp [insertTok, h, lookupTok]
    · simp [insertTok, h, lookupTok, ih]

/-- C6: a token served from the in-memory or persisted cache without a
forced refresh (i.e. a `getToken`/`getIMAPToken` call that performed no
external effect) always comes with an expiry strictly beyond
`now + 1 minute`, recorded in the corresponding in-memory cache. -/
theorem C6_cached_token_fresh :
    ∀ (env : Env) (st : AppState) (accountID : Int),
      (∀ tok st1, getToken env st accountID false = (.ok tok, st1, []) →
        ∃ exp, lookupTok st1.tokens accountID = some ⟨tok, exp⟩ ∧ env.now + 60 < exp)
      ∧ (∀ tok st1, getIMAPToken env st accountID false = (.ok tok, st1, []) →
        ∃ exp, lookupTok st1.imapTokens accountID = some ⟨tok, exp⟩ ∧ env.now + 60 < exp) := by
  intro env st accountID
  constructor
  · intro tok st1 h
    unfold getToken at h
    simp only [Bool.false_eq_true, if_false] at h
    split at h
    next tok0 hmem =>
      simp only [Prod.mk.injEq, Except.ok.injEq] at h
      obtain ⟨h1, h2, -⟩ := h
      split at hmem
      next cached hc =>
        split at hmem
        next hfresh =>
          refine ⟨cached.expiresAt, ?_, by omega⟩
          rw [← h2, h1.symm]
          have ht : cached.token = tok0 := by simpa using hmem
          rw [hc, ← ht]
        next => exact absurd hmem (by simp)
      next => exact absurd hmem (by simp)
    next hmem =>
      split at h
      next e hget => simp at h
      next account hget =>
        split at h
        next exp hdb =>
          simp only [Prod.mk.injEq, Except.ok.injEq] at h
          obtain ⟨h1, h2, -⟩ := h
          split at hdb
          next hne =>
            split at hdb
            next expd hexp =>
              split at hdb
              next hfresh =>
                simp only [Option.some.injEq] at hdb
                refine ⟨exp, ?_, by omega⟩
                rw [← h2, ← h1]
                simp [hdb, lookupTok_insertTok_self]
              next => exact absurd hdb (by simp)
            next => exact absurd hdb (by simp)
          next => exact absurd hdb (by simp)
        next hdb =>
          split at h
          · simp at h
          · simp at h
  · intro tok st1 h
    unfold getIMAPToken at h
    simp only [Bool.false_eq_true, if_false] at h
    split at h
    next tok0 hmem =>
      simp only [Prod.mk.injEq, Except.ok.injEq] at h
      obtain ⟨h1, h2, -⟩ := h
      split at hmem
      next cached hc =>
        split at hmem
        next hfresh =>
          refine ⟨cached.expiresAt, ?_, by omega⟩
          rw [← h2, h1.symm]
          have ht : cached.token = tok0 := by simpa using hmem
          rw [hc, ← ht]
        next => exact absurd hmem (by simp)
      next => exact absurd hmem (by simp)
    next hmem =>
      split at h
      next e hget => simp at h
      next account hget =>
        split at h
        · simp at h
        · simp at h

/-- Witness for C6: in `stO2` the cached REST token of account 7 is
served from memory and its recorded expiry 10000 exceeds `now + 60`. -/
theorem C6_cached_token_fresh_witness :
    ∃ exp, lookupTok stO2.tokens 7 = some ⟨strOf "cachedTok", exp⟩
      ∧ envAuthFail.now + 60 < exp :=
  (C6_cached_token_fresh envAuthFail stO2 7).1 (strOf "cachedTok") stO2 (by decide)

/-- Observing any key's transport marker through an id- and
marker-preserving table update changes nothing. -/
theorem protocol_map_updateAcc (f : Account → Account)
    (hp : ∀ a, (f a).protocol = a.protocol) (hid : ∀ a, (f a).id = a.id)
    (i j : Int) (l : List Account) :
    (lookupAcc (updateAcc f i l) j).map Account.protocol
      = (lookupAcc l j).map Account.protocol := by
  induction l with
  | nil => rfl
  | cons a rest ih =>
    simp only [updateAcc, lookupAcc]
    by_cases hij : a.id = i
    · rw [if_pos hij]
      by_cases hj : a.id = j
      · rw [if_pos ((hid a).trans hj), if_pos hj]
        simp [hp]
      · rw [if_neg (fun h => hj ((hid a).symm.trans h)), if_neg hj]
        exact ih
    · rw [if_neg hij]
      by_cases hj : a.id = j
      · rw [if_pos hj, if_pos hj]
      · rw [if_neg hj, if_neg hj]
        exact ih

/-- The update applied at its own key: the stored record is transformed. -/
theorem lookupAcc_updateAcc_self (f : Account → Account) (hid : ∀ a, (f a).id = a.id)
    (i : Int) (l : List Account) :
    lookupAcc (updateAcc f i l) i = (lookupAcc l i).map f := by
  induction l with
  | nil => rfl
  | cons a rest ih =>
    simp only [updateAcc, lookupAcc]
    by_cases hii : a.id = i
    · rw [if_pos hii, if_pos ((hid a).trans hii), if_pos hii]
      rfl
    · rw [if_neg hii, if_neg hii, if_neg hii]
      exact ih

/-- `AccountService.UpdateStatus` does not touch the transport marker. -/
theorem protocol_map_svcUpdateStatus (st : AppState) (id : Int) (status lastError : Str)
    (j : Int) :
    (lookupAcc (svcUpdateStatus st id status lastError).accounts j).map Account.protocol
      = (lookupAcc st.accounts j).map Account.protocol := by
  exact protocol_map_updateAcc
    (fun a => { a with status := status, lastError := lastError })
    (fun _ => rfl) (fun _ => rfl) id j st.accounts

/-- `AccountService.UpdateToken` does not touch the transport marker. -/
theorem protocol_map_svcUpdateToken (st : AppState) (id : Int) (tok rtok : Str)
    (exp : Int) (j : Int) :
    (lookupAcc (svcUpdateToken st id tok rtok exp).accounts j).map Account.protocol
      = (lookupAcc st.accounts j).map Account.protocol := by
  exact protocol_map_updateAcc
    (fun a => { a with accessToken := tok, refreshToken := rtok,
                       tokenExpiresAt := some exp, status := strOf "active", lastError := [] })
    (fun _ => rfl) (fun _ => rfl) id j st.accounts

/-- `getToken` can change an account's token, status and error fields
but never its transport marker. -/
theorem getToken_protocol (env : Env) (st : AppState) (accountID : Int)
    (forceRefresh : Bool) (j : Int) :
    (lookupAcc ((getToken env st accountID forceRefresh).2.1).accounts j).map Account.protocol
    = (lookupAcc st.accounts j).map Account.protocol := by
  unfold getToken
  repeat' split
  all_goals first
    | rfl
    | (rw [protocol_map_svcUpdateStatus]
       try rw [protocol_map_svcUpdateToken])

/-- `getIMAPToken` likewise never changes the transport marker. -/
theorem getIMAPToken_protocol (env : Env) (st : AppState) (accountID : Int)
    (forceRefresh : Bool) (j : Int) :
    (lookupAcc ((getIMAPToken env st accountID forceRefresh).2.1).accounts j).map
        Account.protocol
    = (lookupAcc st.accounts j).map Account.protocol := by
  unfold getIMAPToken
  repeat' split
  all_goals first
    | rfl
    | (rw [protocol_map_svcUpdateStatus]
       try rw [protocol_map_svcUpdateToken])

/-- Token acquisition performs no REST (graph) transport call. -/
theorem getToken_no_rest (env : Env) (st : AppState) (accountID : Int)
    (forceRefresh : Bool) :
    ∀ e ∈ (getToken env st accountID forceRefresh).2.2, e.isRestCall = false := by
  have h : ((getToken env st accountID forceRefresh).2.2.all
      (fun e => !e.isRestCall)) = true := by
    unfold getToken
    repeat' split
    all_goals rfl
  intro e he
  have h2 := List.all_eq_true.mp h e he
  simpa using h2

/-- IMAP token acquisition performs no REST (graph) transport call. -/
theorem getIMAPToken_no_rest (env : Env) (st : AppState) (accountID : Int)
    (forceRefresh : Bool) :
    ∀ e ∈ (getIMAPToken env st accountID forceRefresh).2.2, e.isRestCall = false := by
  have h : ((getIMAPToken env st accountID forceRefresh).2.2.all
      (fun e => !e.isRestCall)) = true := by
    unfold getIMAPToken
    repeat' split
    all_goals rfl
  intro e he
  have h2 := List.all_eq_true.mp h e he
  simpa using h2

/-- C10: when a forced refresh fails, `getToken` marks the account
erroring and returns the error, but the in-memory cache entry survives:
`CheckAccountToken` reports the account invalid, yet a later non-forced
`getToken` still serves the previously cached access token as long as
its recorded expiry exceeds `now + 1 minute`. -/
theorem C10_failed_refresh_leaves_cache :
    ∀ (env : Env) (st : AppState) (accountID : Int) (account : Account) (em : Str)
      (cached : TokenCacheEntry),
      svcGetByID st accountID = .ok account →
      RefreshAccessToken env.oauth account.clientID account.refreshToken = .error em →
      (getToken env st accountID true
        = (.error em, svcUpdateStatus st accountID (strOf "error") em,
           [.oauthRefresh [], .dbUpdateStatus accountID (strOf "error")]))
      ∧ (svcUpdateStatus st accountID (strOf "error") em).tokens = st.tokens
      ∧ (lookupAcc (svcUpdateStatus st accountID (strOf "error") em).accounts accountID)
          = (lookupAcc st.accounts accountID).map
              (fun a => { a with status := strOf "error", lastError := em })
      ∧ (CheckAccountToken env st accountID).1 = false
      ∧ (lookupTok st.tokens accountID = some cached → env.now + 60 < cached.expiresAt →
          getToken env (svcUpdateStatus st accountID (strOf "error") em) accountID false
            = (.ok cached.token, svcUpdateStatus st accountID (strOf "error") em, [])) := by
  intro env st accountID account em cached hAcc hRef
  have hforce : getToken env st accountID true
      = (.error em, svcUpdateStatus st accountID (strOf "error") em,
         [.oauthRefresh [], .dbUpdateStatus accountID (strOf "error")]) := by
    unfold getToken
    rw [hAcc]
    simp [hRef]
  refine ⟨hforce, rfl, ?_, ?_, ?_⟩
  · exact lookupAcc_updateAcc_self
      (fun a => { a with status := strOf "error", lastError := em })
      (fun _ => rfl) accountID st.accounts
  · unfold CheckAccountToken
    rw [hforce]
  · intro hc hfresh
    unfold getToken
    have ht : lookupTok (svcUpdateStatus st accountID (strOf "error") em).tokens accountID
        = some cached := hc
    rw [ht]
    simp [hfresh]

/-- Witness for C10: with the failing token endpoint of
`envRefreshFail`, checking account 7 reports invalid while the fresh
memory-cached token is still served afterwards. -/
theorem C10_failed_refresh_leaves_cache_witness :
    getToken envRefreshFail
        (svcUpdateStatus stO2 7 (strOf "error") (strOf "invalid_grant: expired")) 7 false
      = (.ok (strOf "cachedTok"),
         svcUpdateStatus stO2 7 (strOf "error") (strOf "invalid_grant: expired"), []) :=
  (C10_failed_refresh_leaves_cache envRefreshFail stO2 7 acctO2
      (strOf "invalid_grant: expired") ⟨strOf "cachedTok", 10000⟩
      (by decide) (by decide)).2.2.2.2 (by decide) (by decide)

/-- C9: for an account whose transport marker is `imap`,
`GetAttachments` performs no transport call at all and returns an empty
list with no error; and in general a non-empty attachment result can
only come from a REST (graph) attachment call. -/
theorem C9_attachments_rest_only :
    ∀ (env : Env) (st : AppState) (accountID : Int) (messageID : Str) (account : Account),
      (svcGetByID st accountID = .ok account → account.protocol = strOf "imap" →
        GetAttachments env st accountID messageID = (.ok [], st, []))
      ∧ (∀ atts, (GetAttachments env st accountID messageID).1 = .ok atts → atts ≠ [] →
          ∃ tok, env.graphAttachments tok messageID = .ok atts
            ∧ .restAttachments tok messageID ∈ (GetAttachments env st accountID messageID).2.2) := by
  intro env st accountID messageID account
  constructor
  · intro hAcc hProto
    unfold GetAttachments
    rw [hAcc]
    simp [hProto]
  · unfold GetAttachments
    repeat' split
    all_goals intro atts h hne
    all_goals simp at h
    all_goals first
      | exact absurd h hne
      | exact absurd h.symm hne
      | (subst h
         refine ⟨_, by assumption, by simp⟩)

/-- Witness for C9: account 7 marked `imap` gets an immediate empty
attachment list with no transport activity. -/
theorem C9_attachments_rest_only_witness :
    GetAttachments envAuthFail stLegacy 7 (strOf "m1") = (.ok [], stLegacy, []) :=
  (C9_attachments_rest_only envAuthFail stLegacy 7 (strOf "m1") acctLegacy).1
    (by decide) (by decide)

/-- C1: for an account whose persisted transport marker is `imap`,
each of listFolders, listMessages and getMessageDetail obtains the
legacy-scope credential via `getIMAPToken` and performs the operation
through the IMAP client directly, and never issues any REST-transport
call. -/
theorem C1_legacy_marker_direct :
    ∀ (env : Env) (st : AppState) (accountID : Int) (account : Account)
      (folderID msgID : Str) (page : Int),
      svcGetByID st accountID = .ok account →
      account.protocol = strOf "imap" →
      (GetMailFolders env st accountID =
        (match getIMAPToken env st accountID false with
         | (.error e, st1, fx) => (.error e, st1, fx)
         | (.ok itok, st1, fx) =>
           (env.imapFolders account.email itok, st1,
            fx ++ [.imapFoldersCall account.email itok])))
      ∧ (GetMessages env st accountID folderID page =
        (match getIMAPToken env st accountID false with
         | (.error e, st1, fx) => (.error e, st1, fx)
         | (.ok itok, st1, fx) =>
           (env.imapMessages account.email itok folderID (page * 20) 20, st1,
            fx ++ [.imapMessagesCall account.email itok folderID (page * 20) 20])))
      ∧ (GetMessageDetail env st accountID msgID folderID =
        (match getIMAPToken env st accountID false with
         | (.error e, st1, fx) => (.error e, st1, fx)
         | (.ok itok, st1, fx) =>
           match env.imapMessage account.email itok
               (if folderID = [] then strOf "inbox" else folderID) msgID with
           | .error e =>
             (.error e, st1,
              fx ++ [.imapMessageCall account.email itok
                       (if folderID = [] then strOf "inbox" else folderID) msgID])
           | .ok m =>
             (.ok (sanitizeMessage m), st1,
              fx ++ [.imapMessageCall account.email itok
                       (if folderID = [] then strOf "inbox" else folderID) msgID])))
      ∧ (∀ e ∈ (GetMailFolders env st accountID).2.2, e.isRestCall = false)
      ∧ (∀ e ∈ (GetMessages env st accountID folderID page).2.2, e.isRestCall = false)
      ∧ (∀ e ∈ (GetMessageDetail env st accountID msgID folderID).2.2,
          e.isRestCall = false) := by
  intro env st accountID account folderID msgID page hAcc hProto
  have hF : GetMailFolders env st accountID =
      (match getIMAPToken env st accountID false with
       | (.error e, st1, fx) => (.error e, st1, fx)
       | (.ok itok, st1, fx) =>
         (env.imapFolders account.email itok, st1,
          fx ++ [.imapFoldersCall account.email itok])) := by
    unfold GetMailFolders
    simp only [hAcc, hProto, if_true]
  have hM : GetMessages env st accountID folderID page =
      (match getIMAPToken env st accountID false with
       | (.error e, st1, fx) => (.error e, st1, fx)
       | (.ok itok, st1, fx) =>
         (env.imapMessages account.email itok folderID (page * 20) 20, st1,
          fx ++ [.imapMessagesCall account.email itok folderID (page * 20) 20])) := by
    unfold GetMessages
    simp only [hAcc, hProto, if_true]
  have hD : GetMessageDetail env st accountID msgID folderID =
      (match getIMAPToken env st accountID false with
       | (.error e, st1, fx) => (.error e, st1, fx)
       | (.ok itok, st1, fx) =>
         match env.imapMessage account.email itok
             (if folderID = [] then strOf "inbox" else folderID) msgID with
         | .error e =>
           (.error e, st1,
            fx ++ [.imapMessageCall account.email itok
                     (if folderID = [] then strOf "inbox" else folderID) msgID])
         | .ok m =>
           (.ok (sanitizeMessage m), st1,
            fx ++ [.imapMessageCall account.email itok
                     (if folderID = [] then strOf "inbox" else folderID) msgID])) := by
    unfold GetMessageDetail
    simp only [hAcc, hProto, if_true]
  refine ⟨hF, hM, hD, ?_, ?_, ?_⟩
  · rw [hF]
    rcases hI : getIMAPToken env st accountID false with ⟨r, st1, fx⟩
    have hfx := getIMAPToken_no_rest env st accountID false
    rw [hI] at hfx
    cases r with
    | error e => exact hfx
    | ok itok =>
      intro e he
      rcases List.mem_append.mp he with h | h
      · exact hfx e h
      · simp only [List.mem_singleton] at h
        simp [h, Effect.isRestCall]
  · rw [hM]
    rcases hI : getIMAPToken env st accountID false with ⟨r, st1, fx⟩
    have hfx := getIMAPToken_no_rest env st accountID false
    rw [hI] at hfx
    cases r with
    | error e => exact hfx
    | ok itok =>
      intro e he
      rcases List.mem_append.mp he with h | h
      · exact hfx e h
      · simp only [List.mem_singleton] at h
        simp [h, Effect.isRestCall]
  · rw [hD]
    rcases hI : getIMAPToken env st accountID false with ⟨r, st1, fx⟩
    have hfx := getIMAPToken_no_rest env st accountID false
    rw [hI] at hfx
    cases r with
    | error e => exact hfx
    | ok itok =>
      rcases hMsg : env.imapMessage account.email itok
          (if folderID = [] then strOf "inbox" else folderID) msgID with e | m
      all_goals intro e2 he
      all_goals simp only [hMsg] at he
      all_goals rcases List.mem_append.mp he with h | h
      · exact hfx e2 h
      · simp only [List.mem_singleton] at h
        simp [h, Effect.isRestCall]
      · exact hfx e2 h
      · simp only [List.mem_singleton] at h
        simp [h, Effect.isRestCall]

/-- Witness for C1: the concrete `imap`-marked account 7 goes straight
to the IMAP transport. -/
theorem C1_legacy_marker_direct_witness :
    GetMailFolders envAuthFail stLegacy 7 =
      (match getIMAPToken envAuthFail stLegacy 7 false with
       | (.error e, st1, fx) => (.error e, st1, fx)
       | (.ok itok, st1, fx) =>
         (envAuthFail.imapFolders acctLegacy.email itok, st1,
          fx ++ [.imapFoldersCall acctLegacy.email itok])) :=
  (C1_legacy_marker_direct envAuthFail stLegacy 7 acctLegacy (strOf "inbox") (strOf "m1") 0
    (by decide) (by decide)).1

/-- Inversion for `AccountService.GetByID`. -/
theorem svcGetByID_eq_ok (st : AppState) (id : Int) (a : Account) :
    svcGetByID st id = .ok a ↔ lookupAcc st.accounts id = some a := by
  unfold svcGetByID
  rcases lookupAcc st.accounts id with _ | b <;> simp

/-- C2: for a non-legacy account, an `unauthorized` REST failure makes
the operation clear the cached credential, force-refresh once and retry
the REST call exactly once (two REST calls in total); when the retry
(or, second half, any other REST failure, with a single REST call) is
followed by a successful legacy attempt, the operation returns the
legacy result and persists the transport marker `imap`. -/
theorem C2_rest_fallback_marks_imap :
    (∀ (env : Env) (st : AppState) (accountID : Int) (account : Account) (eMsg : Str)
      (tok0 : Str) (stA : AppState) (fxA : List Effect)
      (tok1 : Str) (stB : AppState) (fxB : List Effect)
      (itok : Str) (stC : AppState) (fxC : List Effect) (folders : List MailFolder),
      svcGetByID st accountID = .ok account →
      account.protocol ≠ strOf "imap" →
      (∀ t, env.graphFolders t = .error eMsg) →
      containsSub eMsg (strOf "unauthorized") = true →
      ensureValidToken env st accountID = (.ok tok0, stA, fxA) →
      getToken env (clearTokenCache stA accountID) accountID true = (.ok tok1, stB, fxB) →
      getIMAPToken env stB accountID false = (.ok itok, stC, fxC) →
      env.imapFolders account.email itok = .ok folders →
      (GetMailFolders env st accountID
        = (.ok folders, svcUpdateProtocol stC accountID (strOf "imap"),
           fxA ++ [.restFolders tok0, .clearCache accountID] ++ fxB ++ [.restFolders tok1]
             ++ fxC ++ [.imapFoldersCall account.email itok,
                        .dbUpdateProtocol accountID (strOf "imap"),
                        .emitProtocolUpdated accountID]))
      ∧ ((GetMailFolders env st accountID).2.2.filter (fun e => e.isRestCall)).length = 2
      ∧ (lookupAcc (GetMailFolders env st accountID).2.1.accounts accountID).map
          Account.protocol = some (strOf "imap"))
    ∧
    (∀ (env : Env) (st : AppState) (accountID : Int) (account : Account) (eMsg : Str)
      (tok0 : Str) (stA : AppState) (fxA : List Effect)
      (itok : Str) (stC : AppState) (fxC : List Effect) (folders : List MailFolder),
      svcGetByID st accountID = .ok account →
      account.protocol ≠ strOf "imap" →
      ensureValidToken env st accountID = (.ok tok0, stA, fxA) →
      env.graphFolders tok0 = .error eMsg →
      containsSub eMsg (strOf "unauthorized") = false →
      getIMAPToken env stA accountID false = (.ok itok, stC, fxC) →
      env.imapFolders account.email itok = .ok folders →
      (GetMailFolders env st accountID
        = (.ok folders, svcUpdateProtocol stC accountID (strOf "imap"),
           fxA ++ [.restFolders tok0]
             ++ fxC ++ [.imapFoldersCall account.email itok,
                        .dbUpdateProtocol accountID (strOf "imap"),
                        .emitProtocolUpdated accountID]))
      ∧ ((GetMailFolders env st accountID).2.2.filter (fun e => e.isRestCall)).length = 1
      ∧ (lookupAcc (GetMailFolders env st accountID).2.1.accounts accountID).map
          Account.protocol = some (strOf "imap")) := by
  constructor
  · intro env st accountID account eMsg tok0 stA fxA tok1 stB fxB itok stC fxC folders
      hAcc hProto hRest hUn hT0 hT1 hImT hImap
    have hMain : GetMailFolders env st accountID
        = (.ok folders, svcUpdateProtocol stC accountID (strOf "imap"),
           fxA ++ [.restFolders tok0, .clearCache accountID] ++ fxB ++ [.restFolders tok1]
             ++ fxC ++ [.imapFoldersCall account.email itok,
                        .dbUpdateProtocol accountID (strOf "imap"),
                        .emitProtocolUpdated accountID]) := by
      unfold GetMailFolders
      simp only [hAcc]
      rw [if_neg hProto]
      simp only [hT0, hRest, hUn, if_true, hT1, getMailFoldersFallback, hImT, hImap]
    have e0 : (getToken env st accountID false).2.1 = stA := congrArg (fun x => x.2.1) hT0
    have e0f : (getToken env st accountID false).2.2 = fxA := congrArg (fun x => x.2.2) hT0
    have e1 : (getToken env (clearTokenCache stA accountID) accountID true).2.1 = stB :=
      congrArg (fun x => x.2.1) hT1
    have e1f : (getToken env (clearTokenCache stA accountID) accountID true).2.2 = fxB :=
      congrArg (fun x => x.2.2) hT1
    have e2 : (getIMAPToken env stB accountID false).2.1 = stC :=
      congrArg (fun x => x.2.1) hImT
    have e2f : (getIMAPToken env stB accountID false).2.2 = fxC :=
      congrArg (fun x => x.2.2) hImT
    have nA : fxA.filter (fun e => e.isRestCall) = [] := by
      refine List.filter_eq_nil_iff.mpr (fun e he => ?_)
      have := getToken_no_rest env st accountID false e (e0f ▸ he)
      simp [this]
    have nB : fxB.filter (fun e => e.isRestCall) = [] := by
      refine List.filter_eq_nil_iff.mpr (fun e he => ?_)
      have := getToken_no_rest env (clearTokenCache stA accountID) accountID true e (e1f ▸ he)
      simp [this]
    have nC : fxC.filter (fun e => e.isRestCall) = [] := by
      refine List.filter_eq_nil_iff.mpr (fun e he => ?_)
      have := getIMAPToken_no_rest env stB accountID false e (e2f ▸ he)
      simp [this]
    have hChain : (lookupAcc stC.accounts accountID).map Account.protocol
        = (lookupAcc st.accounts accountID).map Account.protocol := by
      calc (lookupAcc stC.accounts accountID).map Account.protocol
          = (lookupAcc stB.accounts accountID).map Account.protocol := by
            rw [← e2]; exact getIMAPToken_protocol env stB accountID false accountID
        _ = (lookupAcc (clearTokenCache stA accountID).accounts accountID).map
              Account.protocol := by
            rw [← e1]
            exact getToken_protocol env (clearTokenCache stA accountID) accountID true accountID
        _ = (lookupAcc stA.accounts accountID).map Account.protocol := rfl
        _ = (lookupAcc st.accounts accountID).map Account.protocol := by
            rw [← e0]; exact getToken_protocol env st accountID false accountID
    have hst : lookupAcc st.accounts accountID = some account :=
      (svcGetByID_eq_ok st accountID account).mp hAcc
    refine ⟨hMain, ?_, ?_⟩
    · rw [hMain]
      simp only [List.filter_append, nA, nB, nC]
      simp [Effect.isRestCall]
    · rw [hMain]
      rw [hst] at hChain
      rcases hC : lookupAcc stC.accounts accountID with _ | a2
      · rw [hC] at hChain; simp at hChain
      · simp only [svcUpdateProtocol]
        rw [lookupAcc_updateAcc_self (fun a => { a with protocol := strOf "imap" })
          (fun _ => rfl) accountID stC.accounts, hC]
        rfl
  · intro env st accountID account eMsg tok0 stA fxA itok stC fxC folders
      hAcc hProto hT0 hRest hUn hImT hImap
    have hMain : GetMailFolders env st accountID
        = (.ok folders, svcUpdateProtocol stC accountID (strOf "imap"),
           fxA ++ [.restFolders tok0]
             ++ fxC ++ [.imapFoldersCall account.email itok,
                        .dbUpdateProtocol accountID (strOf "imap"),
                        .emitProtocolUpdated accountID]) := by
      unfold GetMailFolders
      simp only [hAcc]
      rw [if_neg hProto]
      simp only [hT0, hRest, hUn, if_false, getMailFoldersFallback, hImT, hImap,
        Bool.false_eq_true]
    have e0 : (getToken env st accountID false).2.1 = stA := congrArg (fun x => x.2.1) hT0
    have e0f : (getToken env st accountID false).2.2 = fxA := congrArg (fun x => x.2.2) hT0
    have e2 : (getIMAPToken env stA accountID false).2.1 = stC :=
      congrArg (fun x => x.2.1) hImT
    have e2f : (getIMAPToken env stA accountID false).2.2 = fxC :=
      congrArg (fun x => x.2.2) hImT
    have nA : fxA.filter (fun e => e.isRestCall) = [] := by
      refine List.filter_eq_nil_iff.mpr (fun e he => ?_)
      have := getToken_no_rest env st accountID false e (e0f ▸ he)
      simp [this]
    have nC : fxC.filter (fun e => e.isRestCall) = [] := by
      refine List.filter_eq_nil_iff.mpr (fun e he => ?_)
      have := getIMAPToken_no_rest env stA accountID false e (e2f ▸ he)
      simp [this]
    have hChain : (lookupAcc stC.accounts accountID).map Account.protocol
        = (lookupAcc st.accounts accountID).map Account.protocol := by
      calc (lookupAcc stC.accounts accountID).map Account.protocol
          = (lookupAcc stA.accounts accountID).map Account.protocol := by
            rw [← e2]; exact getIMAPToken_protocol env stA accountID false accountID
        _ = (lookupAcc st.accounts accountID).map Account.protocol := by
            rw [← e0]; exact getToken_protocol env st accountID false accountID
    have hst : lookupAcc st.accounts accountID = some account :=
      (svcGetByID_eq_ok st accountID account).mp hAcc
    refine ⟨hMain, ?_, ?_⟩
    · rw [hMain]
      simp only [List.filter_append, nA, nC]
      simp [Effect.isRestCall]
    · rw [hMain]
      rw [hst] at hChain
      rcases hC : lookupAcc stC.accounts accountID with _ | a2
      · rw [hC] at hChain; simp at hChain
      · simp only [svcUpdateProtocol]
        rw [lookupAcc_updateAcc_self (fun a => { a with protocol := strOf "imap" })
          (fun _ => rfl) accountID stC.accounts, hC]
        rfl

/-- Intermediate state after the forced refresh in the C2 witness run. -/
def c2StB : AppState := (getToken envAuthFail (clearTokenCache stO2 7) 7 true).2.1

/-- Effects of the forced refresh in the C2 witness run. -/
def c2FxB : List Effect := (getToken envAuthFail (clearTokenCache stO2 7) 7 true).2.2

/-- Intermediate state after the IMAP token fetch in the C2 witness run. -/
def c2StC : AppState := (getIMAPToken envAuthFail c2StB 7 false).2.1

/-- Effects of the IMAP token fetch in the C2 witness run. -/
def c2FxC : List Effect := (getIMAPToken envAuthFail c2StB 7 false).2.2

/-- Witness for C2: the always-`unauthorized` REST environment drives
account 7 through the double REST attempt into the successful IMAP
fallback, and the persisted transport marker ends up `imap`. -/
theorem C2_rest_fallback_marks_imap_witness :
    (lookupAcc (GetMailFolders envAuthFail stO2 7).2.1.accounts 7).map Account.protocol
      = some (strOf "imap") :=
  (C2_rest_fallback_marks_imap.1 envAuthFail stO2 7 acctO2
    (strOf "unauthorized: token expired")
    (strOf "cachedTok") stO2 []
    (strOf "newTok") c2StB c2FxB
    (strOf "newTok") c2StC c2FxC [folder1]
    (by decide) (by decide) (fun t => rfl) (by decide)
    (by decide) (by decide) (by decide) rfl).2.2

/-- Pool assignment makes the assigned binding visible. -/
theorem lookupPool_insertPool_self (m : List (Str × PooledClient)) (k : Str)
    (v : PooledClient) : lookupPool (insertPool m k v) k = some v := by
  induction m with
  | nil => simp [insertPool, lookupPool]
  | cons hd tl ih =>
    obtain ⟨k0, v0⟩ := hd
    by_cases h : k0 = k
    · simp [insertPool, h, lookupPool]
    · simp [insertPool, h, lookupPool, ih]

/-- A successful pool lookup is list membership. -/
theorem lookupPool_mem (m : List (Str × PooledClient)) (k : Str) (v : PooledClient) :
    lookupPool m k = some v → (k, v) ∈ m := by
  induction m with
  | nil => simp [lookupPool]
  | cons hd tl ih =>
    obtain ⟨k0, v0⟩ := hd
    by_cases h : k0 = k
    · simp only [lookupPool, if_pos h]
      intro hv
      simp only [Option.some.injEq] at hv
      subst h
      subst hv
      exact List.mem_cons_self _ _
    · simp only [lookupPool, if_neg h]
      intro hv
      exact List.mem_cons_of_mem _ (ih hv)

/-- Membership after pool assignment: the new binding or an old one. -/
theorem mem_insertPool (m : List (Str × PooledClient)) (k : Str) (v : PooledClient)
    (q : Str × PooledClient) : q ∈ insertPool m k v → q = (k, v) ∨ q ∈ m := by
  induction m with
  | nil => simp [insertPool]
  | cons hd tl ih =>
    obtain ⟨k0, v0⟩ := hd
    by_cases h : k0 = k
    · simp only [insertPool, if_pos h, List.mem_cons]
      rintro (hq | hq)
      · exact Or.inl hq
      · exact Or.inr (Or.inr hq)
    · simp only [insertPool, if_neg h, List.mem_cons]
      rintro (hq | hq)
      · exact Or.inr (Or.inl hq)
      · rcases ih hq with h2 | h2
        · exact Or.inl h2
        · exact Or.inr (Or.inr h2)

/-- Membership after pool deletion implies prior membership. -/
theorem mem_erasePool (m : List (Str × PooledClient)) (k : Str)
    (q : Str × PooledClient) : q ∈ erasePool m k → q ∈ m := by
  induction m with
  | nil => simp [erasePool]
  | cons hd tl ih =>
    obtain ⟨k0, v0⟩ := hd
    by_cases h : k0 = k
    · simp only [erasePool, if_pos h]
      intro hq
      exact List.mem_cons_of_mem _ (ih hq)
    · simp only [erasePool, if_neg h, List.mem_cons]
      rintro (hq | hq)
      · exact Or.inl hq
      · exact Or.inr (ih hq)

/-- The keys of a deleted pool are the old keys with `k` filtered out. -/
theorem map_fst_erasePool (m : List (Str × PooledClient)) (k : Str) :
    (erasePool m k).map Prod.fst = (m.map Prod.fst).filter (fun x => x ≠ k) := by
  induction m with
  | nil => simp [erasePool]
  | cons hd tl ih =>
    obtain ⟨k0, v0⟩ := hd
    by_cases h : k0 = k
    · simp [erasePool, h, ih]
    · simp [erasePool, h, ih, List.filter_cons]

/-- Pool assignment preserves key uniqueness. -/
theorem insertPool_keys_nodup (m : List (Str × PooledClient)) (k : Str)
    (v : PooledClient) (h : (m.map Prod.fst).Nodup) :
    ((insertPool m k v).map Prod.fst).Nodup := by
  induction m with
  | nil => simp [insertPool]
  | cons hd tl ih =>
    obtain ⟨k0, v0⟩ := hd
    simp only [List.map_cons, List.nodup_cons] at h
    by_cases hk : k0 = k
    · simp only [insertPool, if_pos hk, List.map_cons, List.nodup_cons]
      exact ⟨hk ▸ h.1, h.2⟩
    · simp only [insertPool, if_neg hk, List.map_cons, List.nodup_cons]
      refine ⟨?_, ih h.2⟩
      intro hmem
      rcases List.mem_map.mp hmem with ⟨q, hq, hfst⟩
      rcases mem_insertPool tl k v q hq with h2 | h2
      · exact hk (by rw [h2] at hfst; exact hfst.symm)
      · exact h.1 (hfst ▸ List.mem_map_of_mem Prod.fst h2)

/-- C5: (a) after a successful acquisition the pool holds exactly the
returned client under the account key, freshly stamped, and a second
acquisition within the 5-minute window with the same token fingerprint
returns the very same client with no close/connect activity, only
refreshing its last-used time; (b) with a stale or fingerprint-mismatched
entry the old client is closed and removed before any replacement is
created — an acquisition that succeeds then returns the fresh client id
`st.nextId`, with the close preceding the connect, and (under the
allocator invariant) a client distinct from the old one; (c) the pool
keeps at most one entry per account key, and the allocator invariant is
preserved. -/
theorem C5_pool_reuse_and_invalidate :
    (∀ (connect : Str → Str → Option Str) (now now2 : Int) (st : PoolState)
      (email token : Str) (cid : Nat) (st1 : PoolState) (fx : List PoolEffect),
      IMAPService.getClient connect now st email token = (.ok cid, st1, fx) →
      ∃ created, lookupPool st1.pool email = some ⟨cid, token, now, created⟩ ∧
        (now2 - now < 300 →
          IMAPService.getClient connect now2 st1 email token
            = (.ok cid,
               { st1 with pool := insertPool st1.pool email ⟨cid, token, now2, created⟩ },
               [])))
    ∧
    (∀ (connect : Str → Str → Option Str) (now : Int) (st : PoolState)
      (email token : Str) (pc : PooledClient),
      lookupPool st.pool email = some pc →
      ¬(now - pc.lastUsed < 300 ∧ pc.token = token) →
      (IMAPService.getClient connect now st email token
        = poolCreateClient connect now { st with pool := erasePool st.pool email }
            email token [.closedClient pc.clientId])
      ∧ (∀ cid st1 fx,
          IMAPService.getClient connect now st email token = (.ok cid, st1, fx) →
          cid = st.nextId
          ∧ fx = [.closedClient pc.clientId, .connectedClient cid]
          ∧ ((∀ q ∈ st.pool, q.2.clientId < st.nextId) → cid ≠ pc.clientId)))
    ∧
    (∀ (connect : Str → Str → Option Str) (now : Int) (st : PoolState)
      (email token : Str),
      ((st.pool.map Prod.fst).Nodup →
        ((((IMAPService.getClient connect now st email token).2.1).pool.map Prod.fst)).Nodup)
      ∧ ((∀ q ∈ st.pool, q.2.clientId < st.nextId) →
          ∀ q ∈ ((IMAPService.getClient connect now st email token).2.1).pool,
            q.2.clientId < ((IMAPService.getClient connect now st email token).2.1).nextId)) := by
  refine ⟨?_, ?_, ?_⟩
  · intro connect now now2 st email token cid st1 fx h
    have hLook : ∃ created, lookupPool st1.pool email = some ⟨cid, token, now, created⟩ := by
      unfold IMAPService.getClient at h
      split at h
      next pc hpc =>
        split at h
        next hcond =>
          simp only [Prod.mk.injEq, Except.ok.injEq] at h
          obtain ⟨h1, h2, -⟩ := h
          refine ⟨pc.createdAt, ?_⟩
          rw [← h2]
          have := lookupPool_insertPool_self st.pool email { pc with lastUsed := now }
          rw [this]
          simp [← h1, hcond.2]
        next hcond =>
          unfold poolCreateClient at h
          split at h
          next => simp at h
          next =>
            simp only [Prod.mk.injEq, Except.ok.injEq] at h
            obtain ⟨h1, h2, -⟩ := h
            refine ⟨now, ?_⟩
            rw [← h2]
            have := lookupPool_insertPool_self (erasePool st.pool email) email
              ⟨st.nextId, token, now, now⟩
            rw [this, ← h1]
      next hpc =>
        unfold poolCreateClient at h
        split at h
        next => simp at h
        next =>
          simp only [Prod.mk.injEq, Except.ok.injEq] at h
          obtain ⟨h1, h2, -⟩ := h
          refine ⟨now, ?_⟩
          rw [← h2]
          have := lookupPool_insertPool_self st.pool email ⟨st.nextId, token, now, now⟩
          rw [this, ← h1]
    obtain ⟨created, hc⟩ := hLook
    refine ⟨created, hc, fun h300 => ?_⟩
    unfold IMAPService.getClient
    simp only [hc]
    rw [if_pos ⟨h300, trivial⟩]
  · intro connect now st email token pc hpc hcond
    have hEq : IMAPService.getClient connect now st email token
        = poolCreateClient connect now { st with pool := erasePool st.pool email }
            email token [.closedClient pc.clientId] := by
      unfold IMAPService.getClient
      simp only [hpc]
      rw [if_neg hcond]
    refine ⟨hEq, ?_⟩
    intro cid st1 fx h
    rw [hEq] at h
    unfold poolCreateClient at h
    split at h
    next => simp at h
    next =>
      simp only [Prod.mk.injEq, Except.ok.injEq] at h
      obtain ⟨h1, -, h3⟩ := h
      refine ⟨h1.symm, by rw [← h3, ← h1]; rfl, ?_⟩
      intro hwf
      have hlt : pc.clientId < st.nextId := by
        simpa using hwf (email, pc) (lookupPool_mem st.pool email pc hpc)
      omega
  · intro connect now st email token
    constructor
    · intro hnd
      unfold IMAPService.getClient
      split
      next pc hpc =>
        split
        next hcond => exact insertPool_keys_nodup st.pool email _ hnd
        next hcond =>
          unfold poolCreateClient
          split
          next => simpa [map_fst_erasePool] using List.Nodup.filter _ hnd
          next =>
            refine insertPool_keys_nodup _ email _ ?_
            simpa [map_fst_erasePool] using List.Nodup.filter _ hnd
      next hpc =>
        unfold poolCreateClient
        split
        next => exact hnd
        next => exact insertPool_keys_nodup st.pool email _ hnd
    · intro hwf
      unfold IMAPService.getClient
      split
      next pc hpc =>
        split
        next hcond =>
          intro q hq
          rcases mem_insertPool st.pool email { pc with lastUsed := now } q hq with h2 | h2
          · have hlt : pc.clientId < st.nextId := by
              simpa using hwf (email, pc) (lookupPool_mem st.pool email pc hpc)
            rw [h2]
            exact hlt
          · exact hwf q h2
        next hcond =>
          unfold poolCreateClient
          split
          next =>
            intro q hq
            exact hwf q (mem_erasePool st.pool email q hq)
          next =>
            intro q hq
            rcases mem_insertPool (erasePool st.pool email) email
                ⟨st.nextId, token, now, now⟩ q hq with h2 | h2
            · rw [h2]
              exact Nat.lt_succ_self _
            · exact Nat.lt_succ_of_lt (hwf q (mem_erasePool st.pool email q h2))
      next hpc =>
        unfold poolCreateClient
        split
        next =>
          intro q hq
          exact hwf q hq
        next =>
          intro q hq
          rcases mem_insertPool st.pool email ⟨st.nextId, token, now, now⟩ q hq with h2 | h2
          · rw [h2]
            exact Nat.lt_succ_self _
          · exact Nat.lt_succ_of_lt (hwf q h2)

/-- An empty pool. -/
def poolSt0 : PoolState := { pool := [], nextId := 0 }

/-- A connect oracle that always succeeds. -/
def poolConnectOk : Str → Str → Option Str := fun _ _ => none

/-- Witness for C5: a first acquisition on the empty pool succeeds and
a second acquisition 100 seconds later with the same token fingerprint
returns the same client with no pool effects. -/
theorem C5_pool_reuse_and_invalidate_witness :
    ∃ created,
      lookupPool
          (IMAPService.getClient poolConnectOk 0 poolSt0 (strOf "a@b")
            (strOf "tok")).2.1.pool (strOf "a@b")
        = some ⟨0, strOf "tok", 0, created⟩
      ∧ ((100 : Int) - 0 < 300 →
          IMAPService.getClient poolConnectOk 100
              (IMAPService.getClient poolConnectOk 0 poolSt0 (strOf "a@b")
                (strOf "tok")).2.1 (strOf "a@b") (strOf "tok")
            = (.ok 0,
               { (IMAPService.getClient poolConnectOk 0 poolSt0 (strOf "a@b")
                   (strOf "tok")).2.1 with
                 pool := insertPool
                   (IMAPService.getClient poolConnectOk 0 poolSt0 (strOf "a@b")
                     (strOf "tok")).2.1.pool
                   (strOf "a@b") ⟨0, strOf "tok", 100, created⟩ },
               [])) :=
  C5_pool_reuse_and_invalidate.1 poolConnectOk 0 100 poolSt0 (strOf "a@b") (strOf "tok") 0
    (IMAPService.getClient poolConnectOk 0 poolSt0 (strOf "a@b") (strOf "tok")).2.1
    (IMAPService.getClient poolConnectOk 0 poolSt0 (strOf "a@b") (strOf "tok")).2.2
    (by decide)

/-- A multipart payload carrying both a plain-text and an HTML part. -/
def sampleMultipart : Str :=
  strOf "Content-Type: multipart/alternative; boundary=\"BOUND\"\r\n\r\n--BOUND\r\nContent-Type: text/plain\r\n\r\nplain text\r\n--BOUND\r\nContent-Type: text/html\r\n\r\n<b>html</b>\r\n--BOUND--\r\n)\r\n"

/-- A multipart payload carrying only a plain-text part. -/
def sampleMultipartText : Str :=
  strOf "Content-Type: multipart/alternative; boundary=\"BOUND\"\r\n\r\n--BOUND\r\nContent-Type: text/plain\r\n\r\nplain only\r\n--BOUND--\r\n)\r\n"

/-- A single-part payload with the IMAP literal tail. -/
def samplePlain : Str :=
  strOf "Content-Type: text/plain\r\n\r\nhello body\r\n)\r\n A003 OK"

/-- C8: with a boundary parameter the payload is split on `--boundary`
and the HTML part is preferred over the plain part when both exist
(and the plain part is used when it is alone); without a boundary the
payload splits at the first blank line; a quoted-printable body with
`=0A` decodes to a literal line feed, a base64 body with embedded CRLF
breaks decodes to the original bytes, and an undeclared encoding passes
through with only whitespace trimming. -/
theorem C8_mime_decode :
    extractBodyWithType sampleMultipart = (strOf "<b>html</b>", true)
    ∧ extractBodyWithType sampleMultipartText = (strOf "plain only", false)
    ∧ extractBodyWithType samplePlain = (strOf "hello body", false)
    ∧ decodeContent (strOf "Content-Transfer-Encoding: quoted-printable")
        (strOf "abc=0Adef") = strOf "abc\ndef"
    ∧ decodeContent (strOf "Content-Transfer-Encoding: base64")
        (strOf "SGVs\r\nbG8=") = strOf "Hello"
    ∧ (∀ body, decodeContent (strOf "Content-Type: text/plain") body = trimSpace body) := by
  refine ⟨by decide, by decide, by decide, by decide, by decide, ?_⟩
  intro body
  have h1 : containsSub (lowerStr (strOf "Content-Type: text/plain"))
      (strOf "quoted-printable") = false := by decide
  have h2 : containsSub (lowerStr (strOf "Content-Type: text/plain"))
      (strOf "base64") = false := by decide
  simp [decodeContent, h1, h2]

/-- A two-message FETCH response in server (oldest-first) order:
sequence 1 carries UID 101 (read), sequence 2 carries UID 102 (unread). -/
def sampleFetchResp : Str :=
  strOf "* 1 FETCH (UID 101 FLAGS (\\Seen) BODY[HEADER.FIELDS (FROM SUBJECT DATE)]\r\nFrom: alice@example.com\r\nSubject: First\r\nDate: Mon, 1 Jan 2024 10:00:00 +0000\r\n\r\n)\r\n* 2 FETCH (UID 102 FLAGS () BODY[HEADER.FIELDS (FROM SUBJECT DATE)]\r\nFrom: bob@example.com\r\nSubject: Second\r\nDate: Tue, 2 Jan 2024 10:00:00 +0000\r\n\r\n)\r\nA002 OK FETCH completed\r\n"

/-- A SELECT response reporting 45 messages. -/
def selectResp45 : Str := strOf "* 45 EXISTS\r\nA001 OK SELECT completed"

/-- A command oracle for a 45-message inbox that only answers the
SELECT command and the two FETCH ranges the claim predicts ([26,45] and
[1,5]); any other command string is an error, so a successful listing
below proves exactly those commands were issued. -/
def cmdOracle45 : Str → Except Str Str := fun c =>
  if c = selectCmdStr (strOf "INBOX") then .ok selectResp45
  else if c = fetchCmdStr 26 45 then .ok sampleFetchResp
  else if c = fetchCmdStr 1 5 then .ok sampleFetchResp
  else .error (strOf "unexpected command")

/-- C4: the IMAP page window is `start = total-skip-top+1` clamped up to
1 and `end = total-skip`, the result is empty once `end < 1` (or the
total is 0), and the parsed batch is reversed so the newest message
comes first; concretely, for `total = 45`, `top = 20` the issued ranges
are `FETCH 26:45` for page 0 (20 sequence numbers) and `FETCH 1:5` for
page 2 (5 sequence numbers), and the sample batch parses to UIDs
`[102, 101]`, the reverse of the server order `[101, 102]`. -/
theorem C4_imap_pagination :
    (∀ (command : Str → Except Str Str) (folderID : Str) (skip top : Int)
       (selectResp : Str) (total : Nat) (fetchResp : Str),
      command (selectCmdStr (MapFolderID folderID)) = .ok selectResp →
      existsFind selectResp = some total →
      (((total : Int) = 0 → IMAPService.GetMessages command folderID skip top = .ok [])
      ∧ ((total : Int) ≠ 0 → (total : Int) - skip < 1 →
          IMAPService.GetMessages command folderID skip top = .ok [])
      ∧ ((total : Int) ≠ 0 → 1 ≤ (total : Int) - skip →
          command (fetchCmdStr
            (if (total : Int) - skip - top + 1 < 1 then 1
             else (total : Int) - skip - top + 1)
            ((total : Int) - skip)) = .ok fetchResp →
          IMAPService.GetMessages command folderID skip top
            = .ok (parseMessages fetchResp))))
    ∧ fetchCmdStr 26 45
        = strOf "FETCH 26:45 (UID FLAGS BODY.PEEK[HEADER.FIELDS (FROM SUBJECT DATE)])"
    ∧ fetchCmdStr 1 5
        = strOf "FETCH 1:5 (UID FLAGS BODY.PEEK[HEADER.FIELDS (FROM SUBJECT DATE)])"
    ∧ IMAPService.GetMessages cmdOracle45 (strOf "inbox") 0 20
        = .ok (parseMessages sampleFetchResp)
    ∧ IMAPService.GetMessages cmdOracle45 (strOf "inbox") 40 20
        = .ok (parseMessages sampleFetchResp)
    ∧ IMAPService.GetMessages cmdOracle45 (strOf "inbox") 60 20 = .ok []
    ∧ ((45 : Int) - 26 + 1 = 20 ∧ (5 : Int) - 1 + 1 = 5)
    ∧ (parseMessages sampleFetchResp).map Message.id = [strOf "102", strOf "101"]
    ∧ ((splitOnStr sampleFetchResp (strOf "* ")).filterMap parseMsgBlock).map Message.id
        = [strOf "101", strOf "102"] := by
  refine ⟨?_, by decide, by decide, by decide, by decide, by decide, by decide,
    by decide, by decide⟩
  intro command folderID skip top selectResp total fetchResp hSel hEx
  refine ⟨?_, ?_, ?_⟩
  · intro h0
    unfold IMAPService.GetMessages
    simp only [hSel, hEx]
    rw [if_pos h0]
  · intro h0 hend
    unfold IMAPService.GetMessages
    simp only [hSel, hEx]
    rw [if_neg h0, if_pos hend]
  · intro h0 hend hFetch
    unfold IMAPService.GetMessages
    simp only [hSel, hEx]
    rw [if_neg h0, if_neg (by omega : ¬((total : Int) - skip < 1))]
    simp only [hFetch]

/-- Witness for C4: page 0 of the 45-message inbox issues `FETCH 26:45`
and returns the reversed sample batch. -/
theorem C4_imap_pagination_witness :
    IMAPService.GetMessages cmdOracle45 (strOf "inbox") 0 20
      = .ok (parseMessages sampleFetchResp) :=
  ((C4_imap_pagination.1 cmdOracle45 (strOf "inbox") 0 20 selectResp45 45 sampleFetchResp
    (by decide) (by decide)).2.2 (by decide) (by decide) (by decide))
